import Mathlib

/-!
Verification development for `posepile/util/preproc_for_efficiency.py`.

The Python module has three functions:
  * `make_efficient_example` — orchestrates crop planning, pixel reprojection,
    caching and record transformation;
  * `get_expanded_crop_box` — rotation-tolerant crop-box expansion;
  * `get_connected_component_with_highest_iou` — mask disambiguation via
    4-connected components and bounding-box IoU.

Shallow embedding conventions:
  * float arithmetic is modelled over `ℝ` (geometry) and generically over a
    `LinearOrderedField` (box/IoU arithmetic, instantiated at `ℚ` for concrete
    computations and at `ℝ` inside the main function);
  * external collaborators (cameralib, improc, imageio, filesystem) are an
    abstract `Env` record of operations;
  * Python objects that are mutated in place (cameras) live in a store
    (`List C`); variables hold store indices, `copy()` allocates;
  * side effects (file reads/writes, image warps) are recorded in a trace.
-/

set_option maxRecDepth 40000

namespace PosePile

/-! ### Boxes (boxlib collaborator)

A box is `[x, y, w, h]`, as in `boxlib`.  The operations used by the source
are `full`, `center`, `box_around`, `expand`, `intersection`, `iou`.
-/

structure Box (α : Type) where
  x : α
  y : α
  w : α
  h : α
deriving DecidableEq, Repr

variable {α : Type} [LinearOrderedField α]

/-- `boxlib.center(box)`: the center point of a box. -/
def boxCenter (b : Box α) : α × α := (b.x + b.w / 2, b.y + b.h / 2)

/-- `boxlib.box_around(center, side)` with a scalar side: the square of the given
side length centered at the given point. -/
def boxAround (c : α × α) (side : α) : Box α :=
  ⟨c.1 - side / 2, c.2 - side / 2, side, side⟩

/-- `boxlib.expand(box, factor)`: scale a box about its own center. -/
def expandBox (b : Box α) (factor : α) : Box α :=
  ⟨b.x + b.w / 2 - b.w * factor / 2, b.y + b.h / 2 - b.h * factor / 2,
   b.w * factor, b.h * factor⟩

/-- `boxlib.intersection(a, b)`: the axis-aligned intersection, with sizes
clamped at zero when the boxes do not meet. -/
def intersectBox (a b : Box α) : Box α :=
  let x1 := max a.x b.x
  let y1 := max a.y b.y
  let x2 := min (a.x + a.w) (b.x + b.w)
  let y2 := min (a.y + a.h) (b.y + b.h)
  ⟨x1, y1, max 0 (x2 - x1), max 0 (y2 - y1)⟩

/-- `boxlib.full(imsize=[w, h])`: the whole-image box `(0, 0, w, h)`. -/
def fullBox (w h : α) : Box α := ⟨0, 0, w, h⟩

/-- Box area. -/
def boxArea (b : Box α) : α := b.w * b.h

/-- `boxlib.iou(a, b)`: intersection area over union area. -/
def iouBox (a b : Box α) : α :=
  let inter := boxArea (intersectBox a b)
  inter / (boxArea a + boxArea b - inter)

/-! ### Binary masks and run-length encoding (rlemasklib collaborator)

Masks are dense boolean grids in row-major order; encoded masks are COCO-style
column-major run-length counts (first count is the number of leading `false`s).
-/

structure MaskGrid where
  h : Nat
  w : Nat
  data : List Bool
deriving DecidableEq, Repr

structure EncMask where
  h : Nat
  w : Nat
  counts : List Nat
deriving DecidableEq, Repr

/-- Run lengths of a boolean list: counts of maximal runs, the first count
being the length of the initial run of `false`s (possibly `0`). -/
def runsAux : Bool → Nat → List Bool → List Nat
  | _, n, [] => [n]
  | cur, n, b :: bs => if b = cur then runsAux cur (n + 1) bs else n :: runsAux b 1 bs

def rleCounts (l : List Bool) : List Nat := runsAux false 0 l

/-- The grid flattened in column-major (Fortran) order, as `rlemasklib` encodes. -/
def colMajor (m : MaskGrid) : List Bool :=
  (List.range m.w).flatMap fun c =>
    (List.range m.h).map fun r => m.data.getD (r * m.w + c) false

/-- `rlemasklib.encode`: run-length encode a dense boolean grid. -/
def rleEncode (m : MaskGrid) : EncMask := ⟨m.h, m.w, rleCounts (colMajor m)⟩

/-- Expand run-length counts back into a boolean list. -/
def runsExpand : Bool → List Nat → List Bool
  | _, [] => []
  | cur, n :: ns => List.replicate n cur ++ runsExpand (!cur) ns

/-- `rlemasklib.decode`: decode an encoded mask back into a dense grid. -/
def rleDecode (e : EncMask) : MaskGrid :=
  let bits := runsExpand false e.counts
  ⟨e.h, e.w, (List.range (e.h * e.w)).map fun i => bits.getD ((i % e.w) * e.h + i / e.w) false⟩

/-! ### 4-connected component labelling (cv2.connectedComponentsWithStats model)

Pixels are flat row-major indices into an `h*w` grid.  Labels: `0` is the
background; foreground components get labels `1, 2, …` in raster order of
their first pixel, which is the order OpenCV's default labelling produces.
-/

/-- 4-neighbours of flat index `i` in a grid of row width `w` and size `hw`. -/
def neighbors4 (w hw i : Nat) : List Nat :=
  (if w ≤ i then [i - w] else []) ++
  (if i + w < hw then [i + w] else []) ++
  (if i % w ≠ 0 then [i - 1] else []) ++
  (if (i + 1) % w ≠ 0 ∧ i + 1 < hw then [i + 1] else [])

/-- Fuel-bounded flood fill: assign label `lab` to every unlabelled foreground
pixel reachable from the stack. -/
def flood (mask : List Bool) (w hw lab : Nat) : Nat → List Nat → List Nat → List Nat
  | 0, _, labels => labels
  | _ + 1, [], labels => labels
  | fuel + 1, i :: stack, labels =>
    if mask.getD i false = true ∧ labels.getD i 0 = 0 then
      flood mask w hw lab fuel (neighbors4 w hw i ++ stack) (labels.set i lab)
    else
      flood mask w hw lab fuel stack labels

/-- One raster pass: start a flood fill with a fresh label at every foreground
pixel not yet labelled.  Returns the label grid and the number of labels
(including the background label `0`). -/
def labelPass (mask : List Bool) (w hw : Nat) : List Nat → Nat → List Nat → List Nat × Nat
  | [], next, labels => (labels, next)
  | i :: rest, next, labels =>
    if mask.getD i false = true ∧ labels.getD i 0 = 0 then
      labelPass mask w hw rest (next + 1) (flood mask w hw next (5 * hw + 5) [i] labels)
    else
      labelPass mask w hw rest next labels

/-- `cv2.connectedComponentsWithStats` labelling part: label grid plus the
number of rows of the statistics array (background row included). -/
def ccLabels (m : MaskGrid) : List Nat × Nat :=
  let hw := m.h * m.w
  labelPass m.data m.w hw (List.range hw) 1 (List.replicate hw 0)

/-- Fold a minimum over a list of naturals (`d` for the empty list). -/
def natMinD (d : Nat) : List Nat → Nat
  | [] => d
  | n :: ns => min n (natMinD d ns)

/-- Fold a maximum over a list of naturals. -/
def natMaxD (d : Nat) : List Nat → Nat
  | [] => d
  | n :: ns => max n (natMaxD d ns)

/-- The bounding-box row of the `stats` array for label `lab`:
`(left, top, width, height)` of the pixels carrying that label, or the zero box
when no pixel does. -/
def statsBox (labels : List Nat) (w hw : Nat) (lab : Nat) : Box α :=
  let idxs := (List.range hw).filter fun i => labels.getD i 0 = lab
  match idxs with
  | [] => ⟨0, 0, 0, 0⟩
  | _ :: _ =>
    let cols := idxs.map fun i => i % w
    let rows := idxs.map fun i => i / w
    let cmin := natMinD hw cols
    let cmax := natMaxD 0 cols
    let rmin := natMinD hw rows
    let rmax := natMaxD 0 rows
    ⟨(cmin : α), (rmin : α), ((cmax + 1 - cmin : Nat) : α), ((rmax + 1 - rmin : Nat) : α)⟩

/-- `np.argmax` on a list: index of the first occurrence of the maximum
(`0` on the empty list). -/
def argmaxAux [LinearOrder β] : List β → β → Nat → Nat → Nat
  | [], _, _, best => best
  | x :: xs, m, i, best => if m < x then argmaxAux xs x (i + 1) i else argmaxAux xs m (i + 1) best

def argmaxList [LinearOrder β] : List β → Nat
  | [] => 0
  | x :: xs => argmaxAux xs x 1 0

/-- `get_connected_component_with_highest_iou(mask, person_box)` from the
source: label the 4-connected components of the thresholded mask, take the
bounding boxes from the statistics rows (row 0 is the background), compute the
IoU of each against `person_box`, and encode the pixel set of the argmax
label. -/
def get_connected_component_with_highest_iou (m : MaskGrid) (person_box : Box α) : EncMask :=
  let lp := ccLabels m
  let labels := lp.1
  let n := lp.2
  let component_boxes : List (Box α) := (List.range n).map fun lab => statsBox labels m.w (m.h * m.w) lab
  let ious := component_boxes.map fun component_box => iouBox component_box person_box
  let person_label := argmaxList ious
  rleEncode ⟨m.h, m.w, (List.range (m.h * m.w)).map fun i => labels.getD i 0 == person_label⟩

/-! ### `get_expanded_crop_box` (source lines 126–140), over `ℝ` -/

/-- `get_expanded_crop_box(bbox, full_box, further_expansion_factor)` from the
source: a square around `bbox`'s center whose side is the rotation-tolerant
extent `max(cos30°·w + sin30°·h, cos30°·h + sin30°·w)`, expanded by
`padding_factor * shift_factor * scale_down_factor * further_expansion_factor`,
intersected with `full_box`. -/
noncomputable def get_expanded_crop_box (bbox full_box : Box ℝ)
    (further_expansion_factor : ℝ) : Box ℝ :=
  let max_rotate : ℝ := Real.pi / 6
  let padding_factor : ℝ := 1 / 0.85
  let scale_down_factor : ℝ := 1 / 0.85
  let shift_factor : ℝ := 1.1
  let s := Real.sin max_rotate
  let c := Real.cos max_rotate
  let rot_bbox_side := max (c * bbox.w + s * bbox.h) (c * bbox.h + s * bbox.w)
  let rot_bbox := boxAround (boxCenter bbox) rot_bbox_side
  let expansion_factor :=
    padding_factor * shift_factor * scale_down_factor * further_expansion_factor
  intersectBox (expandBox rot_bbox expansion_factor) full_box

/-- A point of the rectangle `b` rotated by `θ` about `b`'s center: the center
plus the rotation of the offset `(sx·w/2, sy·h/2)`, `|sx| ≤ 1`, `|sy| ≤ 1`. -/
noncomputable def rotPt (b : Box ℝ) (θ sx sy : ℝ) : ℝ × ℝ :=
  (b.x + b.w / 2 + sx * (b.w / 2) * Real.cos θ - sy * (b.h / 2) * Real.sin θ,
   b.y + b.h / 2 + sx * (b.w / 2) * Real.sin θ + sy * (b.h / 2) * Real.cos θ)

/-- Membership of a point in the closed region of a box. -/
def inBox (B : Box ℝ) (p : ℝ × ℝ) : Prop :=
  B.x ≤ p.1 ∧ p.1 ≤ B.x + B.w ∧ B.y ≤ p.2 ∧ p.2 ≤ B.y + B.h

/-- `B` fully contains the rectangle `b` rotated by `θ` about `b`'s center. -/
def containsRotated (B b : Box ℝ) (θ : ℝ) : Prop :=
  ∀ sx sy : ℝ, |sx| ≤ 1 → |sy| ≤ 1 → inBox B (rotPt b θ sx sy)

/-! ### The example record and external collaborators -/

/-- The three wire formats a mask can arrive in (source lines 107–122). -/
inductive MaskRepr (Img : Type) where
  | path (p : String)
  | dense (m : Img)
  | encoded (e : EncMask)

/-- A training-example record.  `camera` holds a store index (a Python object
reference); `none` models both a missing attribute and `camera is None`.
`hasWorldCoords` models `hasattr(ex, 'world_coords')`. -/
structure Example (Img Coords : Type) where
  image_path : Sum String Img
  bbox : Box ℝ
  camera : Option Nat
  hasWorldCoords : Bool
  coords : Coords
  mask : Option (MaskRepr Img)

/-- Failures of `improc.imread`. -/
inductive ReadErr where
  | fileNotFound
  | other (code : Nat)
deriving DecidableEq

def ReadErr.isFileNotFound : ReadErr → Bool
  | .fileNotFound => true
  | .other _ => false

/-- Exceptions the function can propagate. -/
inductive Failure where
  | readError (e : ReadErr)
  | attributeError
deriving DecidableEq

/-- Observable side effects, in order of occurrence. -/
inductive Ev where
  | readSrc (p : String)
  | readMaskFile (p : String)
  | reproj (srcCam : Nat)
  | wrote (p : String)
deriving DecidableEq

/-- The external collaborators (`cameralib`, `improc`, `imageio`, `spu`,
filesystem), given as an abstract interface.  `C` is the camera state type,
`Img` the pixel-array type, `FS` the filesystem state, `Coords` the keypoint
array type. -/
structure Env (C Img FS Coords : Type) where
  ensure_absolute_path : String → String
  image_extents : String → ℝ × ℝ
  imWidth : Img → ℝ
  imHeight : Img → ℝ
  create2D : C
  turn_towards : C → ℝ × ℝ → C
  undistort : C → C
  shift_image : C → ℝ × ℝ → C
  scale_output : C → ℝ → C
  reproject_box_side_midpoints : Box ℝ → C → C → Box ℝ
  reproject_box_corners : Box ℝ → C → C → Box ℝ
  reproject_image_points : Coords → C → C → Coords
  imread : String → Except ReadErr Img
  is_file_newer : FS → String → Option ℝ → Bool
  is_image_readable : FS → String → Bool
  writeFile : FS → String → Img → FS
  hflip : Img → Img
  gammaDecode : Img → Img
  resize_by_factor : Img → ℝ → Img
  reproject_image : Img → C → C → ℤ × ℤ → Img
  clip01 : Img → Img
  gammaEncode : Img → Img
  gammaEncode3dhp : Img → Img
  white_balance : Img → ℝ → ℝ → Img
  channel0 : Img → Img
  thresholdGt : Img → ℝ → MaskGrid
  ofMaskGrid : MaskGrid → Img

/-- Mutable state threaded through the function: the camera object store, the
filesystem, and the effect trace. -/
structure St (C Img FS : Type) where
  store : List C
  fs : FS
  trace : List Ev

/-- Outputs of the crop-planning part (source lines 34–57). -/
structure Plan where
  oldId : Nat
  newId : Nat
  reprojected_box : Box ℝ
  reprojected_full_box : Box ℝ
  expanded_bbox : Box ℝ
  scale_factor : ℝ
  final_box : Box ℝ
  dst_shape : ℤ × ℤ

variable {C Img FS Coords : Type}

/-- Crop planning, source lines 34–57.

With a 3D camera (`ex.camera = some cid`): `old_camera` aliases the example's
camera object, `new_camera` is a fresh copy that is turned towards the bbox
center and undistorted (the copy-then-mutate pair is modelled as allocating the
final value).  Without one, both cameras are freshly created flat 2D cameras.
Then the bbox is reprojected by side midpoints, the full box by corners (or
replaced by the huge box under `extreme_perspective`), the crop box is expanded
when `further_expansion_factor > 0`, the scale factor is computed, the new
camera is shifted to the crop box origin and scaled, and the bbox is
reprojected once more. -/
noncomputable def phaseA [Inhabited C] (env : Env C Img FS Coords) (st : St C Img FS)
    (ex : Example Img Coords) (full_box : Box ℝ)
    (further_expansion_factor : ℝ) (extreme_perspective : Bool) :
    St C Img FS × Plan :=
  let alloc :=
    match ex.camera with
    | some cid =>
      let cam0 := st.store.getD cid default
      (st.store ++ [env.undistort (env.turn_towards cam0 (boxCenter ex.bbox))],
       cid, st.store.length)
    | none =>
      (st.store ++ [env.create2D, env.create2D], st.store.length, st.store.length + 1)
  let store1 := alloc.1
  let oldId := alloc.2.1
  let newId := alloc.2.2
  let oldCam := store1.getD oldId default
  let newCam := store1.getD newId default
  let reprojected_box := env.reproject_box_side_midpoints ex.bbox oldCam newCam
  let reprojected_full_box : Box ℝ :=
    if extreme_perspective then ⟨-1e9, -1e9, 2e9, 2e9⟩
    else env.reproject_box_corners full_box oldCam newCam
  let expanded_bbox :=
    if 0 < further_expansion_factor then
      get_expanded_crop_box reprojected_box reprojected_full_box further_expansion_factor
    else reprojected_box
  let scale_factor := min 1.2 (256 / max reprojected_box.w reprojected_box.h * 1.5)
  let store2 := store1.set newId
    (env.scale_output (env.shift_image newCam (-expanded_bbox.x, -expanded_bbox.y)) scale_factor)
  let final_box :=
    env.reproject_box_side_midpoints ex.bbox (store2.getD oldId default) (store2.getD newId default)
  let dst_shape : ℤ × ℤ :=
    (round (scale_factor * expanded_bbox.h), round (scale_factor * expanded_bbox.w))
  ({ st with store := store2 },
   ⟨oldId, newId, reprojected_box, reprojected_full_box, expanded_bbox, scale_factor,
    final_box, dst_shape⟩)

/-- Control outcome of the pixel phase. -/
inductive BRes where
  | proceed
  | retNone
  | raised (f : Failure)
deriving DecidableEq

/-- Pixel phase, source lines 61–96: if the destination file is not both newer
than `min_time` and readable, read the source image (any failure other than
file-not-found returns the skip sentinel when `ignore_broken_image` is set,
otherwise it propagates), optionally flip, convert to linear light, optionally
pre-downscale with a scaled copy of the old camera, warp to the new camera,
clip, convert back to 8 bit (with the 3DHP-specific variant when requested)
and write the destination file. -/
noncomputable def phaseB [Inhabited C] (env : Env C Img FS Coords) (st : St C Img FS)
    (ex : Example Img Coords) (plan : Plan) (new_image_abspath : String)
    (min_time : Option ℝ) (ignore_broken_image horizontal_flip
      downscale_input_for_antialias image_adjustments_3dhp : Bool) :
    St C Img FS × BRes :=
  if env.is_file_newer st.fs new_image_abspath min_time
      && env.is_image_readable st.fs new_image_abspath then
    (st, .proceed)
  else
    let read : St C Img FS × Except ReadErr Img :=
      match ex.image_path with
      | .inl p => ({ st with trace := st.trace ++ [Ev.readSrc p] }, env.imread p)
      | .inr im => (st, .ok im)
    let st := read.1
    match read.2 with
    | .error e =>
      if ignore_broken_image && !e.isFileNotFound then (st, .retNone)
      else (st, .raised (.readError e))
    | .ok im =>
      let im := if horizontal_flip then env.hflip im else im
      let im := env.gammaDecode im
      let down : St C Img FS × Img × Nat :=
        if downscale_input_for_antialias then
          let input_scale_factor := min 1 (plan.scale_factor * 4)
          let ocs := st.store.getD plan.oldId default
          ({ st with store := st.store ++ [env.scale_output ocs input_scale_factor] },
           env.resize_by_factor im input_scale_factor, st.store.length)
        else (st, im, plan.oldId)
      let st := down.1
      let im := down.2.1
      let oldScaledId := down.2.2
      let new_im := env.reproject_image im (st.store.getD oldScaledId default)
        (st.store.getD plan.newId default) plan.dst_shape
      let st : St C Img FS := { st with trace := st.trace ++ [Ev.reproj oldScaledId] }
      let new_im := env.clip01 new_im
      let new_im :=
        if image_adjustments_3dhp then env.white_balance (env.gammaEncode3dhp new_im) 110 145
        else env.gammaEncode new_im
      ({ st with fs := env.writeFile st.fs new_image_abspath new_im,
                 trace := st.trace ++ [Ev.wrote new_image_abspath] }, BRes.proceed)

/-- Record phase, source lines 97–105: deep-copy the example (which copies the
referenced camera object into a fresh store cell), set `bbox` and `image_path`,
substitute the new camera when a 3D camera was present, and reproject the 2D
coordinates when the example carries no world coordinates. -/
noncomputable def phaseC [Inhabited C] (env : Env C Img FS Coords) (st : St C Img FS)
    (ex : Example Img Coords) (plan : Plan) (new_image_path : String) :
    St C Img FS × Example Img Coords :=
  let deep :=
    match ex.camera with
    | some cid =>
      ({ st with store := st.store ++ [st.store.getD cid default] },
       (some st.store.length : Option Nat))
    | none => (st, none)
  let st := deep.1
  let ne : Example Img Coords :=
    { ex with camera := deep.2, bbox := plan.final_box, image_path := .inl new_image_path }
  let ne := if ex.camera.isSome then { ne with camera := some plan.newId } else ne
  let newCoords := env.reproject_image_points ex.coords
    (st.store.getD plan.oldId default) (st.store.getD plan.newId default)
  let ne := if ex.hasWorldCoords then ne else { ne with coords := newCoords }
  (st, ne)

/-- Mask phase, source lines 107–122.  All three representations reproject the
mask from `ex.camera` — the example's own camera attribute, not the planner's
`old_camera` — to the new camera; a missing or `None` camera therefore raises
an attribute error instead of producing a mask.  The path representation is
read, reprojected and thresholded at `32/255` and disambiguated through
`get_connected_component_with_highest_iou`; the dense and encoded
representations are reprojected and thresholded at `127` and encoded
directly. -/
noncomputable def phaseD [Inhabited C] (env : Env C Img FS Coords) (st : St C Img FS)
    (ex : Example Img Coords) (plan : Plan) (ne : Example Img Coords) :
    St C Img FS × Except Failure (Example Img Coords) :=
  match ex.mask with
  | none => (st, .ok ne)
  | some (.path p) =>
    let st : St C Img FS := { st with trace := st.trace ++ [Ev.readMaskFile (env.ensure_absolute_path p)] }
    match env.imread (env.ensure_absolute_path p) with
    | .error e => (st, .error (.readError e))
    | .ok img =>
      match ex.camera with
      | none => (st, .error .attributeError)
      | some cid =>
        let mask := env.channel0 img
        let mask_reproj := env.reproject_image mask (st.store.getD cid default)
          (st.store.getD plan.newId default) plan.dst_shape
        let st : St C Img FS := { st with trace := st.trace ++ [Ev.reproj cid] }
        let grid := env.thresholdGt mask_reproj (32 / 255)
        (st, .ok { ne with mask := some (.encoded
          (get_connected_component_with_highest_iou grid plan.final_box)) })
  | some (.dense m) =>
    match ex.camera with
    | none => (st, .error .attributeError)
    | some cid =>
      let mask_reproj := env.reproject_image m (st.store.getD cid default)
        (st.store.getD plan.newId default) plan.dst_shape
      let st : St C Img FS := { st with trace := st.trace ++ [Ev.reproj cid] }
      (st, .ok { ne with mask := some (.encoded (rleEncode (env.thresholdGt mask_reproj 127))) })
  | some (.encoded em) =>
    match ex.camera with
    | none => (st, .error .attributeError)
    | some cid =>
      let mask := env.ofMaskGrid (rleDecode em)
      let mask_reproj := env.reproject_image mask (st.store.getD cid default)
        (st.store.getD plan.newId default) plan.dst_shape
      let st : St C Img FS := { st with trace := st.trace ++ [Ev.reproj cid] }
      (st, .ok { ne with mask := some (.encoded (rleEncode (env.thresholdGt mask_reproj 127))) })

/-- Source-image extents (`improc.image_extents` for a path, `shape[1]`,
`shape[0]` for an in-memory array), source lines 29–31. -/
noncomputable def sourceExtents [Inhabited C] (env : Env C Img FS Coords)
    (ex : Example Img Coords) : ℝ × ℝ :=
  match ex.image_path with
  | .inl p => env.image_extents (env.ensure_absolute_path p)
  | .inr im => (env.imWidth im, env.imHeight im)

/-- The crop-planning pass of `make_efficient_example` on a fresh state. -/
noncomputable def makePlan [Inhabited C] (env : Env C Img FS Coords) (fs : FS)
    (store : List C) (ex : Example Img Coords)
    (further_expansion_factor : ℝ) (extreme_perspective : Bool) :
    St C Img FS × Plan :=
  phaseA env ⟨store, fs, []⟩ ex
    (fullBox (sourceExtents env ex).1 (sourceExtents env ex).2)
    further_expansion_factor extreme_perspective

/-- The record and mask phases composed after the planning phase, as executed
when the pixel phase proceeds. -/
noncomputable def makeRecordPhase [Inhabited C] (env : Env C Img FS Coords) (fs : FS)
    (store : List C) (ex : Example Img Coords) (new_image_path : String)
    (f : ℝ) (ep : Bool) : St C Img FS × Except Failure (Example Img Coords) :=
  let pa := makePlan env fs store ex f ep
  let pc := phaseC env pa.1 ex pa.2 new_image_path
  phaseD env pc.1 ex pa.2 pc.2

/-- `make_efficient_example` (source lines 22–123): determine the image
extents, plan the crop, run the pixel phase under the caching policy, build the
transformed record and transform the mask.  Returns the result (record, skip
sentinel, or propagated failure) together with the final state. -/
noncomputable def make_efficient_example [Inhabited C] (env : Env C Img FS Coords) (fs : FS)
    (store : List C) (ex : Example Img Coords) (new_image_path : String)
    (further_expansion_factor : ℝ) (image_adjustments_3dhp : Bool)
    (min_time : Option ℝ) (ignore_broken_image horizontal_flip
      downscale_input_for_antialias extreme_perspective : Bool) :
    Except Failure (Option (Example Img Coords)) × St C Img FS :=
  let pa := makePlan env fs store ex further_expansion_factor extreme_perspective
  let new_image_abspath := env.ensure_absolute_path new_image_path
  let pb := phaseB env pa.1 ex pa.2 new_image_abspath min_time ignore_broken_image
    horizontal_flip downscale_input_for_antialias image_adjustments_3dhp
  match pb.2 with
  | .raised f => (.error f, pb.1)
  | .retNone => (.ok none, pb.1)
  | .proceed =>
    let pc := phaseC env pb.1 ex pa.2 new_image_path
    let pd := phaseD env pc.1 ex pa.2 pc.2
    match pd.2 with
    | .error f => (.error f, pd.1)
    | .ok ne => (.ok (some ne), pd.1)

/-! ### Specification-side view of 4-connectivity

Independent of the labelling implementation: pixels are `(row, col)` pairs,
adjacency is 4-neighbourhood, a component is a reachability class of a
foreground pixel. -/

/-- 4-adjacency of two pixels. -/
def adjPx (p q : Nat × Nat) : Prop :=
  (p.1 = q.1 ∧ (p.2 + 1 = q.2 ∨ q.2 + 1 = p.2)) ∨
  (p.2 = q.2 ∧ (p.1 + 1 = q.1 ∨ q.1 + 1 = p.1))

instance (p q : Nat × Nat) : Decidable (adjPx p q) := by
  unfold adjPx; infer_instance

/-- `p` is a foreground pixel of the grid. -/
def fgPx (m : MaskGrid) (p : Nat × Nat) : Prop :=
  p.1 < m.h ∧ p.2 < m.w ∧ m.data.getD (p.1 * m.w + p.2) false = true

instance (m : MaskGrid) (p : Nat × Nat) : Decidable (fgPx m p) := by
  unfold fgPx; infer_instance

/-- Reachability inside the foreground by 4-adjacent steps. -/
def reach (m : MaskGrid) (p q : Nat × Nat) : Prop :=
  Relation.ReflTransGen (fun a b => adjPx a b ∧ fgPx m b) p q

/-- `S` is a 4-connected component of the foreground of `m`. -/
def isComponent (m : MaskGrid) (S : Set (Nat × Nat)) : Prop :=
  ∃ p, fgPx m p ∧ S = {q | reach m p q}

/-! ### Concrete grids and boxes for the mask-disambiguation claims -/

/-- Two disjoint 10×10 foreground blobs (columns 0–9 and 11–20) on a 10×21
grid, separated by the background column 10. -/
def scenMask : MaskGrid :=
  ⟨10, 21, (List.range 210).map fun i => decide (i % 21 ≠ 10)⟩

/-- A subject box overlapping only the left blob. -/
def scenBox : Box ℚ := ⟨0, 0, 10, 10⟩

/-- The left 10×10 blob alone, as a grid. -/
def scenBlobGrid : MaskGrid :=
  ⟨10, 21, (List.range 210).map fun i => decide (i % 21 < 10)⟩

/-- A 6×6 grid whose foreground is a single 2×2 blob at rows/columns 2–3. -/
def cexMask : MaskGrid :=
  ⟨6, 6, (List.range 36).map fun i => decide ((i / 6 = 2 ∨ i / 6 = 3) ∧ (i % 6 = 2 ∨ i % 6 = 3))⟩

/-- A subject box covering the whole 6×6 frame. -/
def cexBox : Box ℚ := ⟨0, 0, 6, 6⟩

/-- The background of `cexMask`, as a grid. -/
def cexBg : MaskGrid :=
  ⟨6, 6, (List.range 36).map fun i =>
    decide (¬((i / 6 = 2 ∨ i / 6 = 3) ∧ (i % 6 = 2 ∨ i % 6 = 3)))⟩

/-- The pixel set of the single foreground blob of `cexMask`. -/
def blob4 : Set (Nat × Nat) := {p | (p.1 = 2 ∨ p.1 = 3) ∧ (p.2 = 2 ∨ p.2 = 3)}

/-! ### Concrete collaborator instantiations for witnesses

All collaborator types are `Unit`; the operations are constant, so every
hypothesis of the claim theorems can be discharged definitionally. -/

/-- Benign environment: reads succeed, the destination file is fresh and
readable, box reprojections are the identity. -/
noncomputable def envW : Env Unit Unit Unit Unit where
  ensure_absolute_path := fun p => p
  image_extents := fun _ => (640, 480)
  imWidth := fun _ => 640
  imHeight := fun _ => 480
  create2D := ()
  turn_towards := fun c _ => c
  undistort := fun c => c
  shift_image := fun c _ => c
  scale_output := fun c _ => c
  reproject_box_side_midpoints := fun b _ _ => b
  reproject_box_corners := fun b _ _ => b
  reproject_image_points := fun p _ _ => p
  imread := fun _ => .ok ()
  is_file_newer := fun _ _ _ => true
  is_image_readable := fun _ _ => true
  writeFile := fun f _ _ => f
  hflip := fun i => i
  gammaDecode := fun i => i
  resize_by_factor := fun i _ => i
  reproject_image := fun i _ _ _ => i
  clip01 := fun i => i
  gammaEncode := fun i => i
  gammaEncode3dhp := fun i => i
  white_balance := fun i _ _ => i
  channel0 := fun i => i
  thresholdGt := fun _ _ => ⟨0, 0, []⟩
  ofMaskGrid := fun _ => ()

/-- Environment whose destination file is stale and whose source read fails
with file-not-found. -/
noncomputable def envMiss : Env Unit Unit Unit Unit :=
  { envW with imread := fun _ => .error .fileNotFound, is_file_newer := fun _ _ _ => false }

/-- Environment whose destination file is stale and whose source read fails
with a non-file-not-found error. -/
noncomputable def envCorrupt : Env Unit Unit Unit Unit :=
  { envW with imread := fun _ => .error (.other 7), is_file_newer := fun _ _ _ => false }

/-- A 3D example (world coordinates present, camera object at store index 0),
no mask. -/
noncomputable def exPlain : Example Unit Unit :=
  ⟨.inr (), ⟨0, 0, 50, 80⟩, some 0, true, (), none⟩

/-- Source image given as a path. -/
noncomputable def exPath : Example Unit Unit := { exPlain with image_path := .inl "src.jpg" }

/-- `exPlain` with a dense in-memory mask. -/
noncomputable def exMasked : Example Unit Unit := { exPlain with mask := some (.dense ()) }

/-- A 2D example carrying a dense mask but no camera. -/
noncomputable def exNoCam : Example Unit Unit :=
  { exPlain with camera := none, hasWorldCoords := false, mask := some (.dense ()) }

/-- The label grid `cv2` produces on `cexMask` (background 0, blob 1). -/
def lblC : List Nat := (List.range 36).map fun i =>
  if (i / 6 = 2 ∨ i / 6 = 3) ∧ (i % 6 = 2 ∨ i % 6 = 3) then 1 else 0

/-- The label grid `cv2` produces on `scenMask` (background 0, left blob 1,
right blob 2). -/
def lblS : List Nat := (List.range 210).map fun i =>
  if i % 21 < 10 then 1 else if i % 21 = 10 then 0 else 2

/-! ## Helper lemmas -/

lemma getD_append_len_add {γ : Type} (l t : List γ) (k : Nat) (d : γ) :
    (l ++ t).getD (l.length + k) d = t.getD k d := by
  rw [List.getD_append_right l t d _ (Nat.le_add_right _ _)]
  congr 1
  omega

lemma set_append_add {γ : Type} (t : List γ) (k : Nat) (v : γ) :
    ∀ l : List γ, (l ++ t).set (l.length + k) v = l ++ t.set k v := by
  intro l
  induction l with
  | nil => simp
  | cons a l ih =>
    have h1 : (a :: l).length + k = (l.length + k) + 1 := by simp; omega
    simp only [List.cons_append, h1, List.set_cons_succ, ih]

lemma getD_map_range {γ : Type} (f : Nat → γ) (n k : Nat) (d : γ) (hk : k < n) :
    ((List.range n).map f).getD k d = f k := by
  rw [List.getD_eq_getElem _ _ (by simpa using hk)]
  simp

lemma labelPass_next_le (mask : List Bool) (w hw : Nat) :
    ∀ (rest : List Nat) (next : Nat) (labels : List Nat),
      next ≤ (labelPass mask w hw rest next labels).2 := by
  intro rest
  induction rest with
  | nil => intro next labels; exact le_refl _
  | cons i r ih =>
    intro next labels
    unfold labelPass
    split
    · exact le_trans (Nat.le_succ _) (ih _ _)
    · exact ih _ _

lemma ccLabels_num_pos (m : MaskGrid) : 1 ≤ (ccLabels m).2 :=
  labelPass_next_le m.data m.w (m.h * m.w) _ 1 _

lemma argmaxAux_spec {β : Type} [LinearOrder β] (d : β) :
    ∀ (xs : List β) (f : Nat → β) (m : β) (i best : Nat),
      (∀ k, k < xs.length → f (i + k) = xs.getD k d) →
      best < i → f best = m →
      (∀ k, k < i → f k ≤ m) →
      (∀ k, k < best → f k < m) →
      argmaxAux xs m i best < i + xs.length ∧
      (∀ k, k < i + xs.length → f k ≤ f (argmaxAux xs m i best)) ∧
      (∀ k, k < argmaxAux xs m i best → f k < f (argmaxAux xs m i best)) := by
  intro xs
  induction xs with
  | nil =>
    intro f m i best hf hbi hfb hle hlt
    refine ⟨by simpa using hbi, ?_, ?_⟩
    · intro k hk
      have hk' : k < i := by simpa using hk
      exact hfb ▸ (hle k hk')
    · intro k hk
      exact hfb ▸ (hlt k hk)
  | cons x xs ih =>
    intro f m i best hf hbi hfb hle hlt
    have hfi : f i = x := by simpa using hf 0 (by simp)
    have hlen : i + (x :: xs).length = (i + 1) + xs.length := by simp; omega
    have hshift : ∀ k, k < xs.length → f ((i + 1) + k) = xs.getD k d := by
      intro k hk
      have h1 : (i + 1) + k = i + (k + 1) := by omega
      rw [h1, hf (k + 1) (by simpa using Nat.succ_lt_succ hk)]
      simp
    show argmaxAux (x :: xs) m i best < i + (x :: xs).length ∧ _
    rw [hlen]
    unfold argmaxAux
    split
    · -- m < x : new running max x at index i
      rename_i hmx
      exact ih f x (i + 1) i hshift (Nat.lt_succ_self i) hfi
        (by
          intro k hk
          rcases Nat.lt_succ_iff_lt_or_eq.mp hk with h | h
          · exact le_of_lt (lt_of_le_of_lt (hle k h) hmx)
          · exact le_of_eq (h ▸ hfi))
        (by
          intro k hk
          exact lt_of_le_of_lt (hle k hk) hmx)
    · -- x ≤ m : keep running max
      rename_i hmx
      exact ih f m (i + 1) best hshift (Nat.lt_succ_of_lt hbi) hfb
        (by
          intro k hk
          rcases Nat.lt_succ_iff_lt_or_eq.mp hk with h | h
          · exact hle k h
          · exact h ▸ (hfi ▸ le_of_not_lt hmx))
        hlt

lemma argmaxList_spec {β : Type} [LinearOrder β] (d : β) (l : List β) (hl : l ≠ []) :
    argmaxList l < l.length ∧
    (∀ k, k < l.length → l.getD k d ≤ l.getD (argmaxList l) d) ∧
    (∀ k, k < argmaxList l → l.getD k d < l.getD (argmaxList l) d) := by
  match l, hl with
  | x :: xs, _ =>
    have h := argmaxAux_spec d xs (fun k => (x :: xs).getD k d) x 1 0
      (by intro k hk; simp [List.getD_cons_succ, Nat.add_comm 1 k])
      Nat.one_pos (by simp) (by intro k hk; interval_cases k <;> simp)
      (by intro k hk; omega)
    simpa [argmaxList, Nat.add_comm xs.length 1] using h

lemma argmax_map_spec {γ : Type} [LinearOrder γ] (f : Nat → γ) (n : Nat) (hn : 1 ≤ n) :
    argmaxList ((List.range n).map f) < n ∧
    (∀ k, k < n → f k ≤ f (argmaxList ((List.range n).map f))) ∧
    (∀ k, k < argmaxList ((List.range n).map f) →
      f k < f (argmaxList ((List.range n).map f))) := by
  have hlen : ((List.range n).map f).length = n := by simp
  have hne : (List.range n).map f ≠ [] :=
    List.length_pos.mp (by rw [hlen]; omega)
  obtain ⟨h1, h2, h3⟩ := argmaxList_spec (f 0) _ hne
  rw [hlen] at h1
  have hval : ∀ k, k < n → ((List.range n).map f).getD k (f 0) = f k :=
    fun k hk => getD_map_range f n k (f 0) hk
  refine ⟨h1, ?_, ?_⟩
  · intro k hk
    have h := h2 k (by rw [hlen]; exact hk)
    rwa [hval k hk, hval _ h1] at h
  · intro k hk
    have h := h3 k hk
    rwa [hval k (lt_trans hk h1), hval _ h1] at h

lemma statsBox_eq_of_ne {γ : Type} [LinearOrderedField γ] (labels : List Nat) (w hw lab : Nat)
    (h : (List.range hw).filter (fun i => labels.getD i 0 = lab) ≠ []) :
    statsBox (α := γ) labels w hw lab =
      ⟨(natMinD hw (((List.range hw).filter fun i => labels.getD i 0 = lab).map fun i => i % w) : γ),
       (natMinD hw (((List.range hw).filter fun i => labels.getD i 0 = lab).map fun i => i / w) : γ),
       ((natMaxD 0 (((List.range hw).filter fun i => labels.getD i 0 = lab).map fun i => i % w) + 1
         - natMinD hw (((List.range hw).filter fun i => labels.getD i 0 = lab).map fun i => i % w) : Nat) : γ),
       ((natMaxD 0 (((List.range hw).filter fun i => labels.getD i 0 = lab).map fun i => i / w) + 1
         - natMinD hw (((List.range hw).filter fun i => labels.getD i 0 = lab).map fun i => i / w) : Nat) : γ)⟩ := by
  unfold statsBox
  cases hidx : (List.range hw).filter fun i => labels.getD i 0 = lab with
  | nil => exact absurd hidx h
  | cons a t => simp only [hidx]

lemma cex_stats0 : statsBox (α := ℚ) lblC 6 36 0 = ⟨0, 0, 6, 6⟩ := by
  rw [statsBox_eq_of_ne _ _ _ _ (by decide),
      show natMinD 36 (((List.range 36).filter fun i => lblC.getD i 0 = 0).map fun i => i % 6) = 0 from by decide,
      show natMaxD 0 (((List.range 36).filter fun i => lblC.getD i 0 = 0).map fun i => i % 6) = 5 from by decide,
      show natMinD 36 (((List.range 36).filter fun i => lblC.getD i 0 = 0).map fun i => i / 6) = 0 from by decide,
      show natMaxD 0 (((List.range 36).filter fun i => lblC.getD i 0 = 0).map fun i => i / 6) = 5 from by decide]
  norm_num

lemma cex_stats1 : statsBox (α := ℚ) lblC 6 36 1 = ⟨2, 2, 2, 2⟩ := by
  rw [statsBox_eq_of_ne _ _ _ _ (by decide),
      show natMinD 36 (((List.range 36).filter fun i => lblC.getD i 0 = 1).map fun i => i % 6) = 2 from by decide,
      show natMaxD 0 (((List.range 36).filter fun i => lblC.getD i 0 = 1).map fun i => i % 6) = 3 from by decide,
      show natMinD 36 (((List.range 36).filter fun i => lblC.getD i 0 = 1).map fun i => i / 6) = 2 from by decide,
      show natMaxD 0 (((List.range 36).filter fun i => lblC.getD i 0 = 1).map fun i => i / 6) = 3 from by decide]
  norm_num

lemma cex_iou0 : iouBox (⟨0, 0, 6, 6⟩ : Box ℚ) cexBox = 1 := by
  norm_num [iouBox, intersectBox, boxArea, cexBox, max_def, min_def]

lemma cex_iou1 : iouBox (⟨2, 2, 2, 2⟩ : Box ℚ) cexBox = 1 / 9 := by
  norm_num [iouBox, intersectBox, boxArea, cexBox, max_def, min_def]

lemma cex_argmax : argmaxList (List.map (fun component_box => iouBox component_box cexBox)
    (List.map (fun lab => statsBox (α := ℚ) lblC 6 36 lab) (List.range 2))) = 0 := by
  rw [show List.range 2 = [0, 1] from by decide]
  simp only [List.map_cons, List.map_nil, cex_stats0, cex_stats1, cex_iou0, cex_iou1]
  norm_num [argmaxList, argmaxAux]

lemma cex_getcc : get_connected_component_with_highest_iou cexMask cexBox = rleEncode cexBg := by
  have hlab : ccLabels cexMask = (lblC, 2) := by decide
  simp only [get_connected_component_with_highest_iou, hlab,
    show cexMask.h = 6 from rfl, show cexMask.w = 6 from rfl, show (6 : ℕ) * 6 = 36 from rfl]
  rw [cex_argmax]
  decide

lemma scen_stats0 : statsBox (α := ℚ) lblS 21 210 0 = ⟨10, 0, 1, 10⟩ := by
  rw [statsBox_eq_of_ne _ _ _ _ (by decide),
      show natMinD 210 (((List.range 210).filter fun i => lblS.getD i 0 = 0).map fun i => i % 21) = 10 from by decide,
      show natMaxD 0 (((List.range 210).filter fun i => lblS.getD i 0 = 0).map fun i => i % 21) = 10 from by decide,
      show natMinD 210 (((List.range 210).filter fun i => lblS.getD i 0 = 0).map fun i => i / 21) = 0 from by decide,
      show natMaxD 0 (((List.range 210).filter fun i => lblS.getD i 0 = 0).map fun i => i / 21) = 9 from by decide]
  norm_num

lemma scen_stats1 : statsBox (α := ℚ) lblS 21 210 1 = ⟨0, 0, 10, 10⟩ := by
  rw [statsBox_eq_of_ne _ _ _ _ (by decide),
      show natMinD 210 (((List.range 210).filter fun i => lblS.getD i 0 = 1).map fun i => i % 21) = 0 from by decide,
      show natMaxD 0 (((List.range 210).filter fun i => lblS.getD i 0 = 1).map fun i => i % 21) = 9 from by decide,
      show natMinD 210 (((List.range 210).filter fun i => lblS.getD i 0 = 1).map fun i => i / 21) = 0 from by decide,
      show natMaxD 0 (((List.range 210).filter fun i => lblS.getD i 0 = 1).map fun i => i / 21) = 9 from by decide]
  norm_num

lemma scen_stats2 : statsBox (α := ℚ) lblS 21 210 2 = ⟨11, 0, 10, 10⟩ := by
  rw [statsBox_eq_of_ne _ _ _ _ (by decide),
      show natMinD 210 (((List.range 210).filter fun i => lblS.getD i 0 = 2).map fun i => i % 21) = 11 from by decide,
      show natMaxD 0 (((List.range 210).filter fun i => lblS.getD i 0 = 2).map fun i => i % 21) = 20 from by decide,
      show natMinD 210 (((List.range 210).filter fun i => lblS.getD i 0 = 2).map fun i => i / 21) = 0 from by decide,
      show natMaxD 0 (((List.range 210).filter fun i => lblS.getD i 0 = 2).map fun i => i / 21) = 9 from by decide]
  norm_num

lemma scen_iou0 : iouBox (⟨10, 0, 1, 10⟩ : Box ℚ) scenBox = 0 := by
  norm_num [iouBox, intersectBox, boxArea, scenBox, max_def, min_def]

lemma scen_iou1 : iouBox (⟨0, 0, 10, 10⟩ : Box ℚ) scenBox = 1 := by
  norm_num [iouBox, intersectBox, boxArea, scenBox, max_def, min_def]

lemma scen_iou2 : iouBox (⟨11, 0, 10, 10⟩ : Box ℚ) scenBox = 0 := by
  norm_num [iouBox, intersectBox, boxArea, scenBox, max_def, min_def]

lemma scen_argmax : argmaxList (List.map (fun component_box => iouBox component_box scenBox)
    (List.map (fun lab => statsBox (α := ℚ) lblS 21 210 lab) (List.range 3))) = 1 := by
  rw [show List.range 3 = [0, 1, 2] from by decide]
  simp only [List.map_cons, List.map_nil, scen_stats0, scen_stats1, scen_stats2,
    scen_iou0, scen_iou1, scen_iou2]
  norm_num [argmaxList, argmaxAux]

lemma scen_getcc :
    get_connected_component_with_highest_iou scenMask scenBox = rleEncode scenBlobGrid := by
  have hlab : ccLabels scenMask = (lblS, 3) := by decide
  simp only [get_connected_component_with_highest_iou, hlab,
    show scenMask.h = 10 from rfl, show scenMask.w = 21 from rfl,
    show (10 : ℕ) * 21 = 210 from rfl]
  rw [scen_argmax]
  decide

/-! ## C2: mask disambiguation by highest-IoU label -/

/-- C2 (amended): `get_connected_component_with_highest_iou` returns the
run-length encoding of the pixel set of the label whose statistics-row
bounding box has the highest IoU with the subject box, where the candidate
labels include the background label 0 (first such label on ties); and on the
two-disjoint-10×10-blob scenario with a subject box overlapping only the left
blob, the output is exactly the encoding of that blob. -/
theorem c2_highest_iou_label :
    (∀ (α : Type) (_ : LinearOrderedField α) (m : MaskGrid) (pb : Box α),
      ∃ lab, lab < (ccLabels m).2 ∧
        get_connected_component_with_highest_iou m pb =
          rleEncode ⟨m.h, m.w,
            (List.range (m.h * m.w)).map fun i => (ccLabels m).1.getD i 0 == lab⟩ ∧
        (∀ k, k < (ccLabels m).2 →
          iouBox (statsBox (ccLabels m).1 m.w (m.h * m.w) k) pb ≤
            iouBox (statsBox (ccLabels m).1 m.w (m.h * m.w) lab) pb) ∧
        (∀ k, k < lab →
          iouBox (statsBox (ccLabels m).1 m.w (m.h * m.w) k) pb <
            iouBox (statsBox (ccLabels m).1 m.w (m.h * m.w) lab) pb)) ∧
    get_connected_component_with_highest_iou scenMask scenBox = rleEncode scenBlobGrid := by
  constructor
  · intro α inst m pb
    have hmap : (List.map (fun component_box => iouBox component_box pb)
        (List.map (fun lab => statsBox (α := α) (ccLabels m).1 m.w (m.h * m.w) lab)
          (List.range (ccLabels m).2)))
      = (List.range (ccLabels m).2).map
          (fun lab => iouBox (statsBox (α := α) (ccLabels m).1 m.w (m.h * m.w) lab) pb) := by
      rw [List.map_map]
      rfl
    obtain ⟨h1, h2, h3⟩ := argmax_map_spec
      (fun lab => iouBox (statsBox (α := α) (ccLabels m).1 m.w (m.h * m.w) lab) pb)
      (ccLabels m).2 (ccLabels_num_pos m)
    refine ⟨argmaxList (List.map (fun component_box => iouBox component_box pb)
        (List.map (fun lab => statsBox (α := α) (ccLabels m).1 m.w (m.h * m.w) lab)
          (List.range (ccLabels m).2))), ?_, rfl, ?_, ?_⟩
    · rw [hmap]
      exact h1
    · rw [hmap]
      exact h2
    · rw [hmap]
      exact h3
  · exact scen_getcc

/-- C2 counterexample: on a mask whose foreground is a single 2×2 blob and a
subject box covering the whole frame, the background row wins the IoU argmax,
so the output is the encoding of the background pixel set, not the encoding of
the unique foreground 4-connected component (which is the blob itself). -/
theorem c2_counterexample :
    (∀ S, isComponent cexMask S → S = blob4) ∧
    (∀ r, r < 6 → ∀ c, c < 6 →
      (fgPx cexMask (r, c) ↔ ((r = 2 ∨ r = 3) ∧ (c = 2 ∨ c = 3)))) ∧
    get_connected_component_with_highest_iou cexMask cexBox = rleEncode cexBg ∧
    get_connected_component_with_highest_iou cexMask cexBox ≠ rleEncode cexMask := by
  have hfg_blob : ∀ q : Nat × Nat, fgPx cexMask q → (q.1 = 2 ∨ q.1 = 3) ∧ (q.2 = 2 ∨ q.2 = 3) := by
    intro q hq
    have hdec : ∀ r, r < 6 → ∀ c, c < 6 →
        (fgPx cexMask (r, c) → (r = 2 ∨ r = 3) ∧ (c = 2 ∨ c = 3)) := by decide
    exact hdec q.1 hq.1 q.2 hq.2.1 hq
  have step : ∀ a b : Nat × Nat, adjPx a b → fgPx cexMask b → reach cexMask a b := by
    intro a b h1 h2
    exact Relation.ReflTransGen.single ⟨h1, h2⟩
  have from22 : ∀ b : Nat × Nat, (b.1 = 2 ∨ b.1 = 3) ∧ (b.2 = 2 ∨ b.2 = 3) →
      reach cexMask (2, 2) b := by
    rintro ⟨a, b⟩ ⟨h1 | h1, h2 | h2⟩ <;> subst h1 <;> subst h2
    · exact Relation.ReflTransGen.refl
    · exact step _ _ (by decide) (by decide)
    · exact step _ _ (by decide) (by decide)
    · exact Relation.ReflTransGen.tail (step (2, 2) (2, 3) (by decide) (by decide))
        ⟨by decide, by decide⟩
  have to22 : ∀ b : Nat × Nat, (b.1 = 2 ∨ b.1 = 3) ∧ (b.2 = 2 ∨ b.2 = 3) →
      reach cexMask b (2, 2) := by
    rintro ⟨a, b⟩ ⟨h1 | h1, h2 | h2⟩ <;> subst h1 <;> subst h2
    · exact Relation.ReflTransGen.refl
    · exact step _ _ (by decide) (by decide)
    · exact step _ _ (by decide) (by decide)
    · exact Relation.ReflTransGen.tail (step (3, 3) (3, 2) (by decide) (by decide))
        ⟨by decide, by decide⟩
  refine ⟨?_, by decide, cex_getcc, by rw [cex_getcc]; decide⟩
  intro S hS
  obtain ⟨p, hp, rfl⟩ := hS
  ext q
  simp only [Set.mem_setOf_eq]
  constructor
  · intro hr
    induction hr with
    | refl => exact hfg_blob p hp
    | tail hrs hstep ih => exact hfg_blob _ hstep.2
  · intro hq
    exact Relation.ReflTransGen.trans (to22 p (hfg_blob p hp)) (from22 q hq)

/-! ## Geometry helpers for the rotation-containment claims -/

lemma sqrt3_ge : (1.7 : ℝ) ≤ Real.sqrt 3 := by
  rw [show (1.7 : ℝ) = Real.sqrt (1.7 ^ 2) from (Real.sqrt_sq (by norm_num)).symm]
  exact Real.sqrt_le_sqrt (by norm_num)

lemma abs_sin_le_053 {θ : ℝ} (h : |θ| ≤ Real.pi / 6) : |Real.sin θ| ≤ 0.53 := by
  have h1 : |Real.sin θ| ≤ |θ| := Real.abs_sin_le_abs
  have h2 : Real.pi < 3.15 := Real.pi_lt_315
  calc |Real.sin θ| ≤ |θ| := h1
    _ ≤ Real.pi / 6 := h
    _ ≤ 0.53 := by linarith

lemma inBox_intersectBox {a b : Box ℝ} {p : ℝ × ℝ} (ha : inBox a p) (hb : inBox b p) :
    inBox (intersectBox a b) p := by
  obtain ⟨ha1, ha2, ha3, ha4⟩ := ha
  obtain ⟨hb1, hb2, hb3, hb4⟩ := hb
  have key : ∀ z u v : ℝ, u ≤ z → z ≤ v → z ≤ u + max 0 (v - u) := by
    intro z u v h1 h2
    rcases max_cases (0 : ℝ) (v - u) with ⟨he, hc⟩ | ⟨he, hc⟩ <;> rw [he] <;> linarith
  refine ⟨max_le ha1 hb1, ?_, max_le ha3 hb3, ?_⟩
  · show p.1 ≤ max a.x b.x + max 0 (min (a.x + a.w) (b.x + b.w) - max a.x b.x)
    exact key _ _ _ (max_le ha1 hb1) (le_min ha2 hb2)
  · show p.2 ≤ max a.y b.y + max 0 (min (a.y + a.h) (b.y + b.h) - max a.y b.y)
    exact key _ _ _ (max_le ha3 hb3) (le_min ha4 hb4)

lemma coord_bound (a b side E : ℝ) (ha : 0 < a) (hb : 0 < b)
    (hE : 440 / 289 ≤ E) (hside : Real.sqrt 3 / 2 * a + 1 / 2 * b ≤ side) :
    a / 2 + b / 2 * 0.53 ≤ side * E / 2 := by
  have hs3 := sqrt3_ge
  have h1 : 0.85 * a + 0.5 * b ≤ side := by
    nlinarith [mul_nonneg (by linarith : (0 : ℝ) ≤ Real.sqrt 3 - 1.7) ha.le]
  have h2 : (0 : ℝ) < side := by linarith
  have h3 : (0.85 * a + 0.5 * b) * (440 / 289) ≤ side * E :=
    mul_le_mul h1 hE (by norm_num) h2.le
  linarith

lemma abs_sub_le_abs_add_abs (x y : ℝ) : |x - y| ≤ |x| + |y| := by
  calc |x - y| = |x + -y| := by rw [sub_eq_add_neg]
    _ ≤ |x| + |-y| := abs_add _ _
    _ = |x| + |y| := by rw [abs_neg]

/-! ## C3: rotation containment of the expanded crop box -/

/-- C3 counterexample: for `bbox = full_box = (0,0,10,10)`,
`further_expansion_factor = 1` and rotation by exactly 30°, the expanded crop
box does not contain the rotated box — the intersection with the full box
clips the part of the rotated box that leaves the image. -/
theorem c3_counterexample :
    0 < (Box.mk 0 0 10 10 : Box ℝ).w ∧ 0 < (Box.mk 0 0 10 10 : Box ℝ).h ∧
    (1 : ℝ) ≤ 1 ∧ |Real.pi / 6| ≤ Real.pi / 6 ∧
    ¬ containsRotated
        (get_expanded_crop_box ⟨0, 0, 10, 10⟩ ⟨0, 0, 10, 10⟩ 1)
        ⟨0, 0, 10, 10⟩ (Real.pi / 6) := by
  have hpi : (0 : ℝ) < Real.pi := Real.pi_pos
  refine ⟨by norm_num, by norm_num, le_refl 1,
    le_of_eq (abs_of_nonneg (by linarith)), ?_⟩
  intro hcon
  have h := hcon (-1) (-1) (by norm_num) (by norm_num)
  have hy := h.2.2.1
  have hge : (0 : ℝ) ≤ (get_expanded_crop_box
      (⟨0, 0, 10, 10⟩ : Box ℝ) ⟨0, 0, 10, 10⟩ 1).y := by
    simp only [get_expanded_crop_box, intersectBox]
    exact le_max_right _ _
  have hy2 : (rotPt (⟨0, 0, 10, 10⟩ : Box ℝ) (Real.pi / 6) (-1) (-1)).2 < 0 := by
    simp only [rotPt, Real.sin_pi_div_six, Real.cos_pi_div_six]
    have := sqrt3_ge
    norm_num
    linarith
  linarith

/-- C3 (amended): whenever the rotated box additionally lies inside the full
box passed to `get_expanded_crop_box` (so the clip to image bounds cannot cut
it), the expanded crop box contains the box rotated by any angle up to 30°,
for every `further_expansion_factor ≥ 1`. -/
theorem c3_amended (b full_box : Box ℝ) (f θ : ℝ)
    (hw : 0 < b.w) (hh : 0 < b.h) (hf : 1 ≤ f) (hθ : |θ| ≤ Real.pi / 6)
    (hfull : containsRotated full_box b θ) :
    containsRotated (get_expanded_crop_box b full_box f) b θ := by
  intro sx sy hsx hsy
  have hp := hfull sx sy hsx hsy
  have hsθ : |Real.sin θ| ≤ 0.53 := abs_sin_le_053 hθ
  have hcθ : |Real.cos θ| ≤ 1 := Real.abs_cos_le_one θ
  have hE : (440 / 289 : ℝ) ≤ 1 / 0.85 * 1.1 * (1 / 0.85) * f := by
    have h1 : (1 / 0.85 * 1.1 * (1 / 0.85) : ℝ) = 440 / 289 := by norm_num
    rw [h1]
    linarith
  have hu : |sx * (b.w / 2)| ≤ b.w / 2 := by
    rw [abs_mul]
    calc |sx| * |b.w / 2| ≤ 1 * |b.w / 2| :=
          mul_le_mul_of_nonneg_right hsx (abs_nonneg _)
      _ = b.w / 2 := by rw [one_mul, abs_of_pos (by linarith)]
  have hv : |sy * (b.h / 2)| ≤ b.h / 2 := by
    rw [abs_mul]
    calc |sy| * |b.h / 2| ≤ 1 * |b.h / 2| :=
          mul_le_mul_of_nonneg_right hsy (abs_nonneg _)
      _ = b.h / 2 := by rw [one_mul, abs_of_pos (by linarith)]
  have hM1 : Real.sqrt 3 / 2 * b.w + 1 / 2 * b.h ≤
      max (Real.cos (Real.pi / 6) * b.w + Real.sin (Real.pi / 6) * b.h)
        (Real.cos (Real.pi / 6) * b.h + Real.sin (Real.pi / 6) * b.w) := by
    conv_lhs => rw [← Real.cos_pi_div_six, ← Real.sin_pi_div_six]
    exact le_max_left _ _
  have hM2 : Real.sqrt 3 / 2 * b.h + 1 / 2 * b.w ≤
      max (Real.cos (Real.pi / 6) * b.w + Real.sin (Real.pi / 6) * b.h)
        (Real.cos (Real.pi / 6) * b.h + Real.sin (Real.pi / 6) * b.w) := by
    conv_lhs => rw [← Real.cos_pi_div_six, ← Real.sin_pi_div_six]
    exact le_max_right _ _
  have key1 : |sx * (b.w / 2) * Real.cos θ - sy * (b.h / 2) * Real.sin θ| ≤
      max (Real.cos (Real.pi / 6) * b.w + Real.sin (Real.pi / 6) * b.h)
        (Real.cos (Real.pi / 6) * b.h + Real.sin (Real.pi / 6) * b.w)
      * (1 / 0.85 * 1.1 * (1 / 0.85) * f) / 2 := by
    have h1 : |sx * (b.w / 2) * Real.cos θ| ≤ b.w / 2 * 1 := by
      rw [abs_mul]
      exact mul_le_mul hu hcθ (abs_nonneg _) (by linarith)
    have h2 : |sy * (b.h / 2) * Real.sin θ| ≤ b.h / 2 * 0.53 := by
      rw [abs_mul]
      exact mul_le_mul hv hsθ (abs_nonneg _) (by linarith)
    have h4 := coord_bound b.w b.h _ _ hw hh hE hM1
    calc |sx * (b.w / 2) * Real.cos θ - sy * (b.h / 2) * Real.sin θ|
        ≤ |sx * (b.w / 2) * Real.cos θ| + |sy * (b.h / 2) * Real.sin θ| :=
          abs_sub_le_abs_add_abs _ _
      _ ≤ b.w / 2 + b.h / 2 * 0.53 := by linarith
      _ ≤ _ := h4
  have key2 : |sx * (b.w / 2) * Real.sin θ + sy * (b.h / 2) * Real.cos θ| ≤
      max (Real.cos (Real.pi / 6) * b.w + Real.sin (Real.pi / 6) * b.h)
        (Real.cos (Real.pi / 6) * b.h + Real.sin (Real.pi / 6) * b.w)
      * (1 / 0.85 * 1.1 * (1 / 0.85) * f) / 2 := by
    have h1 : |sx * (b.w / 2) * Real.sin θ| ≤ b.w / 2 * 0.53 := by
      rw [abs_mul]
      exact mul_le_mul hu hsθ (abs_nonneg _) (by linarith)
    have h2 : |sy * (b.h / 2) * Real.cos θ| ≤ b.h / 2 * 1 := by
      rw [abs_mul]
      exact mul_le_mul hv hcθ (abs_nonneg _) (by linarith)
    have h4 := coord_bound b.h b.w _ _ hh hw hE hM2
    calc |sx * (b.w / 2) * Real.sin θ + sy * (b.h / 2) * Real.cos θ|
        ≤ |sx * (b.w / 2) * Real.sin θ| + |sy * (b.h / 2) * Real.cos θ| := abs_add _ _
      _ ≤ b.w / 2 * 0.53 + b.h / 2 := by linarith
      _ ≤ _ := by linarith [h4]
  have hk1 := abs_le.mp key1
  have hk2 := abs_le.mp key2
  show inBox _ _
  simp only [get_expanded_crop_box]
  apply inBox_intersectBox ?_ hp
  simp only [expandBox, boxAround, boxCenter, rotPt, inBox]
  obtain ⟨k1a, k1b⟩ := hk1
  obtain ⟨k2a, k2b⟩ := hk2
  refine ⟨by linarith, by linarith, by linarith, by linarith⟩

/-- C3 amended witness at `b = (0,0,2,2)`, `full_box = (-100,-100,200,200)`,
`f = 1`, `θ = 0`. -/
theorem c3_amended_witness :
    0 < (Box.mk 0 0 2 2 : Box ℝ).w ∧ 0 < (Box.mk 0 0 2 2 : Box ℝ).h ∧
    (1 : ℝ) ≤ 1 ∧ |(0 : ℝ)| ≤ Real.pi / 6 ∧
    containsRotated
      (get_expanded_crop_box ⟨0, 0, 2, 2⟩ ⟨-100, -100, 200, 200⟩ 1)
      ⟨0, 0, 2, 2⟩ 0 := by
  have hpi : (0 : ℝ) < Real.pi := Real.pi_pos
  have habs : |(0 : ℝ)| ≤ Real.pi / 6 := by rw [abs_zero]; linarith
  refine ⟨by norm_num, by norm_num, le_refl 1, habs, ?_⟩
  apply c3_amended _ _ _ _ (by norm_num) (by norm_num) (le_refl 1) habs
  intro sx sy hsx hsy
  obtain ⟨h1, h2⟩ := abs_le.mp hsx
  obtain ⟨h3, h4⟩ := abs_le.mp hsy
  simp only [rotPt, inBox, Real.sin_zero, Real.cos_zero]
  norm_num
  refine ⟨by linarith, by linarith, by linarith, by linarith⟩

/-! ## C4, C7, C8: crop-planner formulas -/

/-- C4: for `further_expansion_factor > 0`, the crop box computed by the
planner equals the intersection of (a) the square around the reprojected box's
center with side `max(cos30°·w + sin30°·h, cos30°·h + sin30°·w)`, expanded by
`(1/0.85) · 1.1 · (1/0.85) · f`, with (b) the reprojected full box, which is
the huge box `(-1e9, -1e9, 2e9, 2e9)` when `extreme_perspective` is set and
otherwise the corner-reprojection of the whole-image box under the same camera
pair used for the side-midpoint reprojection. -/
theorem c4_crop_box_formula {C Img FS Coords : Type} [Inhabited C]
    (env : Env C Img FS Coords) (st : St C Img FS) (ex : Example Img Coords)
    (full_box : Box ℝ) (f : ℝ) (ep : Bool) (hf : 0 < f) :
    (phaseA env st ex full_box f ep).2.expanded_bbox =
      intersectBox
        (expandBox
          (boxAround (boxCenter (phaseA env st ex full_box f ep).2.reprojected_box)
            (max (Real.cos (Real.pi / 6) * (phaseA env st ex full_box f ep).2.reprojected_box.w
                  + Real.sin (Real.pi / 6) * (phaseA env st ex full_box f ep).2.reprojected_box.h)
                 (Real.cos (Real.pi / 6) * (phaseA env st ex full_box f ep).2.reprojected_box.h
                  + Real.sin (Real.pi / 6) * (phaseA env st ex full_box f ep).2.reprojected_box.w)))
          (1 / 0.85 * 1.1 * (1 / 0.85) * f))
        (phaseA env st ex full_box f ep).2.reprojected_full_box ∧
    (ep = true →
      (phaseA env st ex full_box f ep).2.reprojected_full_box = ⟨-1e9, -1e9, 2e9, 2e9⟩) ∧
    (ep = false → ∃ oldC newC,
      (phaseA env st ex full_box f ep).2.reprojected_full_box =
        env.reproject_box_corners full_box oldC newC ∧
      (phaseA env st ex full_box f ep).2.reprojected_box =
        env.reproject_box_side_midpoints ex.bbox oldC newC) := by
  refine ⟨?_, ?_, ?_⟩
  · rcases hc : ex.camera with _ | cid <;>
      simp [phaseA, hc, hf, get_expanded_crop_box]
  · intro hep
    subst hep
    rcases hc : ex.camera with _ | cid <;> simp [phaseA, hc]
  · intro hep
    subst hep
    rcases hc : ex.camera with _ | cid <;>
      · simp only [phaseA, hc]
        exact ⟨_, _, rfl, rfl⟩

/-- C7: with `further_expansion_factor = 0`, the planner uses the bare
side-midpoint reprojected box as the crop box — no expansion, rotation
padding, or full-box intersection — both for the camera shift and for the
destination shape. -/
theorem c7_zero_expansion {C Img FS Coords : Type} [Inhabited C]
    (env : Env C Img FS Coords) (st : St C Img FS) (ex : Example Img Coords)
    (full_box : Box ℝ) (f : ℝ) (ep : Bool) (hf : f = 0) :
    (phaseA env st ex full_box f ep).2.expanded_bbox =
      (phaseA env st ex full_box f ep).2.reprojected_box ∧
    (phaseA env st ex full_box f ep).2.dst_shape =
      (round ((phaseA env st ex full_box f ep).2.scale_factor
        * (phaseA env st ex full_box f ep).2.reprojected_box.h),
       round ((phaseA env st ex full_box f ep).2.scale_factor
        * (phaseA env st ex full_box f ep).2.reprojected_box.w)) := by
  subst hf
  constructor <;> rcases hc : ex.camera with _ | cid <;> simp [phaseA, hc]

/-- C8: the scale factor applied to the new camera is
`min(1.2, 256 / max(w, h) · 1.5)` of the reprojected box, and in particular
never exceeds 1.2. -/
theorem c8_scale_factor {C Img FS Coords : Type} [Inhabited C]
    (env : Env C Img FS Coords) (st : St C Img FS) (ex : Example Img Coords)
    (full_box : Box ℝ) (f : ℝ) (ep : Bool) :
    (phaseA env st ex full_box f ep).2.scale_factor =
      min 1.2 (256 / max (phaseA env st ex full_box f ep).2.reprojected_box.w
        (phaseA env st ex full_box f ep).2.reprojected_box.h * 1.5) ∧
    (phaseA env st ex full_box f ep).2.scale_factor ≤ 1.2 := by
  constructor
  · rcases hc : ex.camera with _ | cid <;> simp [phaseA, hc]
  · rcases hc : ex.camera with _ | cid <;>
      · simp only [phaseA, hc]
        exact min_le_left _ _

/-! ## Phase-level helper lemmas -/

section PhaseLemmas

variable {C Img FS Coords : Type} [Inhabited C] (env : Env C Img FS Coords)
variable (st : St C Img FS) (ex : Example Img Coords) (plan : Plan)

lemma set_snoc_len {γ : Type} (l : List γ) (a v : γ) :
    (l ++ [a]).set l.length v = l ++ [v] := by
  simpa using set_append_add [a] 0 v l

lemma set_pair_len {γ : Type} (l : List γ) (a b v : γ) :
    (l ++ [a, b]).set (l.length + 1) v = l ++ [a, v] := by
  simpa using set_append_add [a, b] 1 v l

lemma phaseA_fs (full_box : Box ℝ) (f : ℝ) (ep : Bool) :
    (phaseA env st ex full_box f ep).1.fs = st.fs := by
  rcases hc : ex.camera with _ | cid <;> simp [phaseA, hc]

lemma phaseA_trace (full_box : Box ℝ) (f : ℝ) (ep : Bool) :
    (phaseA env st ex full_box f ep).1.trace = st.trace := by
  rcases hc : ex.camera with _ | cid <;> simp [phaseA, hc]

lemma phaseA_store (full_box : Box ℝ) (f : ℝ) (ep : Bool) :
    ∃ t, t ≠ [] ∧ (phaseA env st ex full_box f ep).1.store = st.store ++ t := by
  rcases hc : ex.camera with _ | cid
  · simp only [phaseA, hc]
    rw [set_pair_len]
    exact ⟨_, by simp, rfl⟩
  · simp only [phaseA, hc]
    rw [set_snoc_len]
    exact ⟨_, by simp, rfl⟩

lemma phaseA_oldId_lt (full_box : Box ℝ) (f : ℝ) (ep : Bool)
    (hwf : ∀ cid, ex.camera = some cid → cid < st.store.length) :
    (phaseA env st ex full_box f ep).2.oldId < (phaseA env st ex full_box f ep).1.store.length := by
  rcases hc : ex.camera with _ | cid
  · simp [phaseA, hc]
  · have := hwf cid hc
    simp only [phaseA, hc]
    simp [this]
    omega

lemma phaseA_newId_lt (full_box : Box ℝ) (f : ℝ) (ep : Bool) :
    (phaseA env st ex full_box f ep).2.newId < (phaseA env st ex full_box f ep).1.store.length := by
  rcases hc : ex.camera with _ | cid <;> simp [phaseA, hc]

lemma phaseA_newId_eq (full_box : Box ℝ) (f : ℝ) (ep : Bool) :
    (phaseA env st ex full_box f ep).2.newId =
      (if ex.camera.isSome then st.store.length else st.store.length + 1) := by
  rcases hc : ex.camera with _ | cid <;> simp [phaseA, hc]

lemma phaseA_newId_ge (full_box : Box ℝ) (f : ℝ) (ep : Bool) :
    st.store.length ≤ (phaseA env st ex full_box f ep).2.newId := by
  rw [phaseA_newId_eq]
  split <;> omega

lemma phaseA_oldId_eq_some (full_box : Box ℝ) (f : ℝ) (ep : Bool) (cid : Nat)
    (hc : ex.camera = some cid) :
    (phaseA env st ex full_box f ep).2.oldId = cid := by
  simp [phaseA, hc]

lemma phaseA_newCam_some (full_box : Box ℝ) (f : ℝ) (ep : Bool) (cid : Nat)
    (hc : ex.camera = some cid) (hcid : cid < st.store.length) :
    (phaseA env st ex full_box f ep).1.store.getD
        (phaseA env st ex full_box f ep).2.newId default =
      env.scale_output
        (env.shift_image
          (env.undistort (env.turn_towards (st.store.getD cid default) (boxCenter ex.bbox)))
          (-(phaseA env st ex full_box f ep).2.expanded_bbox.x,
           -(phaseA env st ex full_box f ep).2.expanded_bbox.y))
        (phaseA env st ex full_box f ep).2.scale_factor := by
  simp only [phaseA, hc]
  rw [set_snoc_len]
  simp [getD_append_len_add st.store _ 0, List.getD_append _ _ _ _ hcid]

lemma phaseB_cache_hit (pth : String) (mt : Option ℝ) (ib hfl dsc adj : Bool)
    (h1 : env.is_file_newer st.fs pth mt = true)
    (h2 : env.is_image_readable st.fs pth = true) :
    phaseB env st ex plan pth mt ib hfl dsc adj = (st, .proceed) := by
  simp [phaseB, h1, h2]

lemma phaseB_read_error (pth : String) (mt : Option ℝ) (ib hfl dsc adj : Bool)
    (p : String) (e : ReadErr)
    (h1 : (env.is_file_newer st.fs pth mt && env.is_image_readable st.fs pth) = false)
    (hip : ex.image_path = .inl p) (hr : env.imread p = .error e) :
    phaseB env st ex plan pth mt ib hfl dsc adj =
      ({ st with trace := st.trace ++ [Ev.readSrc p] },
       if ib && !e.isFileNotFound then .retNone else .raised (.readError e)) := by
  simp only [phaseB, h1, hip, hr]
  simp only [Bool.and_eq_true, Bool.not_eq_true']
  split <;> split <;> first | rfl | simp_all

lemma phaseB_store (pth : String) (mt : Option ℝ) (ib hfl dsc adj : Bool) :
    ∃ t, (phaseB env st ex plan pth mt ib hfl dsc adj).1.store = st.store ++ t := by
  unfold phaseB
  split
  · exact ⟨[], (List.append_nil _).symm⟩
  · rcases hip : ex.image_path with p | im
    · rcases hr : env.imread p with e | img
      · simp only [hip, hr]
        split <;> exact ⟨[], (List.append_nil _).symm⟩
      · simp only [hip, hr]
        cases hd : dsc
        · exact ⟨[], (List.append_nil _).symm⟩
        · exact ⟨_, rfl⟩
    · simp only [hip]
      cases hd : dsc
      · exact ⟨[], (List.append_nil _).symm⟩
      · exact ⟨_, rfl⟩

lemma phaseC_fs (p : String) : (phaseC env st ex plan p).1.fs = st.fs := by
  rcases hc : ex.camera with _ | cid <;> simp [phaseC, hc]

lemma phaseC_trace (p : String) : (phaseC env st ex plan p).1.trace = st.trace := by
  rcases hc : ex.camera with _ | cid <;> simp [phaseC, hc]

lemma phaseC_store (p : String) :
    ∃ t, (phaseC env st ex plan p).1.store = st.store ++ t := by
  rcases hc : ex.camera with _ | cid
  · exact ⟨[], by simp [phaseC, hc]⟩
  · exact ⟨[st.store.getD cid default], by simp [phaseC, hc]⟩

lemma phaseC_bbox (p : String) : (phaseC env st ex plan p).2.bbox = plan.final_box := by
  rcases hc : ex.camera with _ | cid <;> rcases hw : ex.hasWorldCoords <;>
    simp [phaseC, hc, hw]

lemma phaseC_image_path (p : String) :
    (phaseC env st ex plan p).2.image_path = .inl p := by
  rcases hc : ex.camera with _ | cid <;> rcases hw : ex.hasWorldCoords <;>
    simp [phaseC, hc, hw]

lemma phaseC_hwc (p : String) :
    (phaseC env st ex plan p).2.hasWorldCoords = ex.hasWorldCoords := by
  rcases hc : ex.camera with _ | cid <;> rcases hw : ex.hasWorldCoords <;>
    simp [phaseC, hc, hw]

lemma phaseC_mask (p : String) : (phaseC env st ex plan p).2.mask = ex.mask := by
  rcases hc : ex.camera with _ | cid <;> rcases hw : ex.hasWorldCoords <;>
    simp [phaseC, hc, hw]

lemma phaseC_camera_some (p : String) (cid : Nat) (hc : ex.camera = some cid) :
    (phaseC env st ex plan p).2.camera = some plan.newId := by
  rcases hw : ex.hasWorldCoords <;> simp [phaseC, hc, hw]

lemma phaseC_camera_none (p : String) (hc : ex.camera = none) :
    (phaseC env st ex plan p).2.camera = none := by
  rcases hw : ex.hasWorldCoords <;> simp [phaseC, hc, hw]

lemma phaseC_coords_3d (p : String) (hw : ex.hasWorldCoords = true) :
    (phaseC env st ex plan p).2.coords = ex.coords := by
  rcases hc : ex.camera with _ | cid <;> simp [phaseC, hc, hw]

lemma phaseC_coords_2d (p : String) (hw : ex.hasWorldCoords = false) :
    (phaseC env st ex plan p).2.coords =
      env.reproject_image_points ex.coords
        ((phaseC env st ex plan p).1.store.getD plan.oldId default)
        ((phaseC env st ex plan p).1.store.getD plan.newId default) := by
  rcases hc : ex.camera with _ | cid <;> simp [phaseC, hc, hw]

lemma phaseD_store (ne : Example Img Coords) :
    (phaseD env st ex plan ne).1.store = st.store := by
  rcases hm : ex.mask with _ | mr
  · simp [phaseD, hm]
  · rcases mr with p | m | em
    · rcases hr : env.imread (env.ensure_absolute_path p) with e | img
      · simp [phaseD, hm, hr]
      · rcases hc : ex.camera with _ | cid <;> simp [phaseD, hm, hr, hc]
    · rcases hc : ex.camera with _ | cid <;> simp [phaseD, hm, hc]
    · rcases hc : ex.camera with _ | cid <;> simp [phaseD, hm, hc]

lemma phaseD_fs (ne : Example Img Coords) :
    (phaseD env st ex plan ne).1.fs = st.fs := by
  rcases hm : ex.mask with _ | mr
  · simp [phaseD, hm]
  · rcases mr with p | m | em
    · rcases hr : env.imread (env.ensure_absolute_path p) with e | img
      · simp [phaseD, hm, hr]
      · rcases hc : ex.camera with _ | cid <;> simp [phaseD, hm, hr, hc]
    · rcases hc : ex.camera with _ | cid <;> simp [phaseD, hm, hc]
    · rcases hc : ex.camera with _ | cid <;> simp [phaseD, hm, hc]

lemma phaseD_trace_shape (ne : Example Img Coords) :
    ∃ t, (phaseD env st ex plan ne).1.trace = st.trace ++ t ∧
      ∀ e ∈ t, (∃ q, e = Ev.readMaskFile q) ∨ ∃ c, e = Ev.reproj c := by
  rcases hm : ex.mask with _ | mr
  · exact ⟨[], by simp [phaseD, hm], by simp⟩
  · rcases mr with p | m | em
    · rcases hr : env.imread (env.ensure_absolute_path p) with e | img
      · exact ⟨[Ev.readMaskFile (env.ensure_absolute_path p)], by simp [phaseD, hm, hr],
          by simp⟩
      · rcases hc : ex.camera with _ | cid
        · exact ⟨[Ev.readMaskFile (env.ensure_absolute_path p)], by simp [phaseD, hm, hr, hc],
            by simp⟩
        · exact ⟨[Ev.readMaskFile (env.ensure_absolute_path p), Ev.reproj cid],
            by simp [phaseD, hm, hr, hc], by simp⟩
    · rcases hc : ex.camera with _ | cid
      · exact ⟨[], by simp [phaseD, hm, hc], by simp⟩
      · exact ⟨[Ev.reproj cid], by simp [phaseD, hm, hc], by simp⟩
    · rcases hc : ex.camera with _ | cid
      · exact ⟨[], by simp [phaseD, hm, hc], by simp⟩
      · exact ⟨[Ev.reproj cid], by simp [phaseD, hm, hc], by simp⟩

lemma phaseD_mask_none (ne : Example Img Coords) (hm : ex.mask = none) :
    phaseD env st ex plan ne = (st, .ok ne) := by
  simp [phaseD, hm]

lemma phaseD_ok_fields (ne ne2 : Example Img Coords)
    (h : (phaseD env st ex plan ne).2 = .ok ne2) :
    ne2.bbox = ne.bbox ∧ ne2.image_path = ne.image_path ∧ ne2.camera = ne.camera ∧
    ne2.coords = ne.coords ∧ ne2.hasWorldCoords = ne.hasWorldCoords := by
  rcases hm : ex.mask with _ | mr
  · simp only [phaseD, hm] at h
    cases h
    exact ⟨rfl, rfl, rfl, rfl, rfl⟩
  · rcases mr with p | m | em
    · rcases hr : env.imread (env.ensure_absolute_path p) with e | img
      · simp [phaseD, hm, hr] at h
      · rcases hc : ex.camera with _ | cid
        · simp [phaseD, hm, hr, hc] at h
        · simp only [phaseD, hm, hr, hc] at h
          cases h
          exact ⟨rfl, rfl, rfl, rfl, rfl⟩
    · rcases hc : ex.camera with _ | cid
      · simp [phaseD, hm, hc] at h
      · simp only [phaseD, hm, hc] at h
        cases h
        exact ⟨rfl, rfl, rfl, rfl, rfl⟩
    · rcases hc : ex.camera with _ | cid
      · simp [phaseD, hm, hc] at h
      · simp only [phaseD, hm, hc] at h
        cases h
        exact ⟨rfl, rfl, rfl, rfl, rfl⟩

lemma phaseD_no_camera (ne : Example Img Coords) (mr : MaskRepr Img)
    (hm : ex.mask = some mr) (hc : ex.camera = none) :
    (∀ ne2, (phaseD env st ex plan ne).2 ≠ .ok ne2) ∧
    (∀ m, mr = .dense m → (phaseD env st ex plan ne).2 = .error .attributeError) ∧
    (∀ em, mr = .encoded em → (phaseD env st ex plan ne).2 = .error .attributeError) ∧
    (∀ p img, mr = .path p → env.imread (env.ensure_absolute_path p) = .ok img →
      (phaseD env st ex plan ne).2 = .error .attributeError) := by
  rcases mr with p | m | em
  · refine ⟨?_, by simp, by simp, ?_⟩
    · intro ne2
      rcases hr : env.imread (env.ensure_absolute_path p) with e | img <;>
        simp [phaseD, hm, hr, hc]
    · intro p2 img hp2 hr
      cases hp2
      simp [phaseD, hm, hr, hc]
  · refine ⟨?_, ?_, by simp, by simp⟩
    · intro ne2
      simp [phaseD, hm, hc]
    · intro m2 hm2
      cases hm2
      simp [phaseD, hm, hc]
  · refine ⟨?_, by simp, ?_, by simp⟩
    · intro ne2
      simp [phaseD, hm, hc]
    · intro em2 hm2
      cases hm2
      simp [phaseD, hm, hc]

lemma phaseD_reproj_event (ne : Example Img Coords) (m : Img) (cid : Nat)
    (hm : ex.mask = some (.dense m)) (hc : ex.camera = some cid) :
    (phaseD env st ex plan ne).1.trace = st.trace ++ [Ev.reproj cid] := by
  simp [phaseD, hm, hc]

end PhaseLemmas

/-! ## Whole-function helper lemmas -/

section MakeLemmas

variable {C Img FS Coords : Type} [Inhabited C] (env : Env C Img FS Coords)
variable (fs : FS) (store : List C) (ex : Example Img Coords)

lemma makePlan_fs (f : ℝ) (ep : Bool) : (makePlan env fs store ex f ep).1.fs = fs := by
  unfold makePlan
  rw [phaseA_fs]

lemma makePlan_trace (f : ℝ) (ep : Bool) : (makePlan env fs store ex f ep).1.trace = [] := by
  unfold makePlan
  rw [phaseA_trace]

lemma makePlan_store (f : ℝ) (ep : Bool) :
    ∃ t, (makePlan env fs store ex f ep).1.store = store ++ t := by
  unfold makePlan
  obtain ⟨t, _, ht⟩ := phaseA_store env ⟨store, fs, []⟩ ex
    (fullBox (sourceExtents env ex).1 (sourceExtents env ex).2) f ep
  exact ⟨t, ht⟩

lemma make_cache_hit (nip : String) (f : ℝ) (adj : Bool) (mt : Option ℝ)
    (ib hfl dsc ep : Bool)
    (h1 : env.is_file_newer fs (env.ensure_absolute_path nip) mt = true)
    (h2 : env.is_image_readable fs (env.ensure_absolute_path nip) = true) :
    make_efficient_example env fs store ex nip f adj mt ib hfl dsc ep =
      (match (makeRecordPhase env fs store ex nip f ep).2 with
       | .error fl => (.error fl, (makeRecordPhase env fs store ex nip f ep).1)
       | .ok ne => (.ok (some ne), (makeRecordPhase env fs store ex nip f ep).1)) := by
  simp only [make_efficient_example]
  rw [phaseB_cache_hit]
  · rfl
  · rw [makePlan_fs]
    exact h1
  · rw [makePlan_fs]
    exact h2

lemma makeRecordPhase_fs (nip : String) (f : ℝ) (ep : Bool) :
    (makeRecordPhase env fs store ex nip f ep).1.fs = fs := by
  unfold makeRecordPhase
  rw [phaseD_fs, phaseC_fs, makePlan_fs]

lemma makeRecordPhase_trace (nip : String) (f : ℝ) (ep : Bool) :
    ∃ t, (makeRecordPhase env fs store ex nip f ep).1.trace = t ∧
      ∀ e ∈ t, (∃ q, e = Ev.readMaskFile q) ∨ ∃ c, e = Ev.reproj c := by
  unfold makeRecordPhase
  obtain ⟨t, ht, hsub⟩ := phaseD_trace_shape env _ ex _ _
  refine ⟨t, ?_, hsub⟩
  rw [ht, phaseC_trace, makePlan_trace]
  simp

end MakeLemmas

/-! ## C1: read-failure handling -/

/-- C1: when the cache check fails and the source image is a path whose read
fails, a file-not-found error is re-raised regardless of
`ignore_broken_image`, while any other read error yields the skip sentinel
`None` when the flag is set and is re-raised when it is not. -/
theorem c1_read_error_handling {C Img FS Coords : Type} [Inhabited C]
    (env : Env C Img FS Coords) (fs : FS) (store : List C) (ex : Example Img Coords)
    (nip : String) (f : ℝ) (adj : Bool) (mt : Option ℝ) (hfl dsc ep : Bool) (p : String)
    (hcache : (env.is_file_newer fs (env.ensure_absolute_path nip) mt &&
      env.is_image_readable fs (env.ensure_absolute_path nip)) = false)
    (hip : ex.image_path = .inl p) :
    (env.imread p = .error .fileNotFound →
      ∀ ib, (make_efficient_example env fs store ex nip f adj mt ib hfl dsc ep).1 =
        .error (.readError .fileNotFound)) ∧
    (∀ code, env.imread p = .error (.other code) →
      (make_efficient_example env fs store ex nip f adj mt true hfl dsc ep).1 = .ok none ∧
      (make_efficient_example env fs store ex nip f adj mt false hfl dsc ep).1 =
        .error (.readError (.other code))) := by
  constructor
  · intro hr ib
    have hB := phaseB_read_error env (makePlan env fs store ex f ep).1 ex
      (makePlan env fs store ex f ep).2 (env.ensure_absolute_path nip) mt ib hfl dsc adj p _
      (by rw [makePlan_fs]; exact hcache) hip hr
    simp only [make_efficient_example]
    rw [hB]
    simp [ReadErr.isFileNotFound]
  · intro code hr
    constructor
    · have hB := phaseB_read_error env (makePlan env fs store ex f ep).1 ex
        (makePlan env fs store ex f ep).2 (env.ensure_absolute_path nip) mt true hfl dsc adj p _
        (by rw [makePlan_fs]; exact hcache) hip hr
      simp only [make_efficient_example]
      rw [hB]
      simp [ReadErr.isFileNotFound]
    · have hB := phaseB_read_error env (makePlan env fs store ex f ep).1 ex
        (makePlan env fs store ex f ep).2 (env.ensure_absolute_path nip) mt false hfl dsc adj p _
        (by rw [makePlan_fs]; exact hcache) hip hr
      simp only [make_efficient_example]
      rw [hB]
      simp [ReadErr.isFileNotFound]

/-! ## C5: caching behaviour -/

/-- C5 (amended): when the destination file is newer than `min_time` and
readable, the filesystem is returned unchanged (no write), no source-image
read happens, and for a maskless example no image-reprojection event occurs at
all; a second call on the resulting state returns the identical result and
again performs no write.  (A mask-carrying example still reprojects — and for
a path mask re-reads — its mask on every call, which is what refutes the claim
as stated.) -/
theorem c5_cache_idempotent {C Img FS Coords : Type} [Inhabited C]
    (env : Env C Img FS Coords) (fs : FS) (store : List C) (ex : Example Img Coords)
    (nip : String) (f : ℝ) (adj : Bool) (mt : Option ℝ) (ib hfl dsc ep : Bool)
    (h1 : env.is_file_newer fs (env.ensure_absolute_path nip) mt = true)
    (h2 : env.is_image_readable fs (env.ensure_absolute_path nip) = true) :
    (make_efficient_example env fs store ex nip f adj mt ib hfl dsc ep).2.fs = fs ∧
    (∀ q, Ev.wrote q ∉ (make_efficient_example env fs store ex nip f adj mt ib hfl dsc ep).2.trace) ∧
    (∀ q, Ev.readSrc q ∉ (make_efficient_example env fs store ex nip f adj mt ib hfl dsc ep).2.trace) ∧
    (ex.mask = none → (make_efficient_example env fs store ex nip f adj mt ib hfl dsc ep).2.trace = []) ∧
    make_efficient_example env
        (make_efficient_example env fs store ex nip f adj mt ib hfl dsc ep).2.fs
        store ex nip f adj mt ib hfl dsc ep =
      make_efficient_example env fs store ex nip f adj mt ib hfl dsc ep := by
  have hm := make_cache_hit env fs store ex nip f adj mt ib hfl dsc ep h1 h2
  have hstate : (make_efficient_example env fs store ex nip f adj mt ib hfl dsc ep).2 =
      (makeRecordPhase env fs store ex nip f ep).1 := by
    rw [hm]
    rcases hx : (makeRecordPhase env fs store ex nip f ep).2 with fl | ne <;> rfl
  have hfs : (make_efficient_example env fs store ex nip f adj mt ib hfl dsc ep).2.fs = fs := by
    rw [hstate, makeRecordPhase_fs]
  refine ⟨hfs, ?_, ?_, ?_, by rw [hfs]⟩
  · intro q hq
    rw [hstate] at hq
    obtain ⟨t, ht, hsub⟩ := makeRecordPhase_trace env fs store ex nip f ep
    rw [ht] at hq
    rcases hsub _ hq with ⟨q2, he⟩ | ⟨c2, he⟩ <;> simp at he
  · intro q hq
    rw [hstate] at hq
    obtain ⟨t, ht, hsub⟩ := makeRecordPhase_trace env fs store ex nip f ep
    rw [ht] at hq
    rcases hsub _ hq with ⟨q2, he⟩ | ⟨c2, he⟩ <;> simp at he
  · intro hmn
    rw [hstate]
    simp only [makeRecordPhase]
    rw [phaseD_mask_none env _ ex _ _ hmn]
    rw [show ((phaseC env (makePlan env fs store ex f ep).1 ex (makePlan env fs store ex f ep).2 nip).1,
        Except.ok (phaseC env (makePlan env fs store ex f ep).1 ex (makePlan env fs store ex f ep).2 nip).2).1
      = (phaseC env (makePlan env fs store ex f ep).1 ex (makePlan env fs store ex f ep).2 nip).1 from rfl]
    rw [phaseC_trace, makePlan_trace]

/-- C5 counterexample: a fresh, readable destination together with a
dense-mask example still triggers a mask reprojection (a pixel computation) —
the trace of the call contains an image-reprojection event even though the
cache check passes. -/
theorem c5_counterexample :
    envW.is_file_newer () "dst.jpg" none = true ∧
    envW.is_image_readable () "dst.jpg" = true ∧
    Ev.reproj 0 ∈
      (make_efficient_example envW () [()] exMasked "dst.jpg" 1 false none
        false false false false).2.trace := by
  refine ⟨rfl, rfl, ?_⟩
  have h : (make_efficient_example envW () [()] exMasked "dst.jpg" 1 false none
      false false false false).2.trace = [Ev.reproj 0] := rfl
  rw [h]
  exact List.mem_singleton.mpr rfl

/-! ## C10: the mask branch needs the example's own camera -/

/-- C10: the mask phase reprojects with the example's own `camera` attribute,
not the substituted flat 2D camera; a 2D example without a camera that carries
a mask therefore never yields a record — dense and encoded masks raise the
attribute error directly, a path mask raises it right after its file is read.
When a camera is present, the mask reprojection's source camera is exactly the
example's own camera object (the store index recorded in the trace event). -/
theorem c10_mask_requires_camera {C Img FS Coords : Type} [Inhabited C]
    (env : Env C Img FS Coords) (fs : FS) (store : List C) (ex : Example Img Coords)
    (nip : String) (f : ℝ) (adj : Bool) (mt : Option ℝ) (ib hfl dsc ep : Bool)
    (h1 : env.is_file_newer fs (env.ensure_absolute_path nip) mt = true)
    (h2 : env.is_image_readable fs (env.ensure_absolute_path nip) = true) :
    (∀ mr, ex.mask = some mr → ex.camera = none → ex.hasWorldCoords = false →
      (∀ r, (make_efficient_example env fs store ex nip f adj mt ib hfl dsc ep).1 ≠ .ok r) ∧
      (∀ m, mr = .dense m →
        (make_efficient_example env fs store ex nip f adj mt ib hfl dsc ep).1 =
          .error .attributeError) ∧
      (∀ em, mr = .encoded em →
        (make_efficient_example env fs store ex nip f adj mt ib hfl dsc ep).1 =
          .error .attributeError) ∧
      (∀ p img, mr = .path p → env.imread (env.ensure_absolute_path p) = .ok img →
        (make_efficient_example env fs store ex nip f adj mt ib hfl dsc ep).1 =
          .error .attributeError)) ∧
    (∀ cid m, ex.camera = some cid → ex.mask = some (.dense m) →
      Ev.reproj cid ∈
        (make_efficient_example env fs store ex nip f adj mt ib hfl dsc ep).2.trace) := by
  have hm := make_cache_hit env fs store ex nip f adj mt ib hfl dsc ep h1 h2
  have hrp : (makeRecordPhase env fs store ex nip f ep).2 =
      (phaseD env
        (phaseC env (makePlan env fs store ex f ep).1 ex (makePlan env fs store ex f ep).2 nip).1
        ex (makePlan env fs store ex f ep).2
        (phaseC env (makePlan env fs store ex f ep).1 ex (makePlan env fs store ex f ep).2 nip).2).2 :=
    rfl
  constructor
  · intro mr hmr hcam _
    obtain ⟨hok, hdense, henc, hpath⟩ := phaseD_no_camera env
      (phaseC env (makePlan env fs store ex f ep).1 ex (makePlan env fs store ex f ep).2 nip).1
      ex (makePlan env fs store ex f ep).2
      (phaseC env (makePlan env fs store ex f ep).1 ex (makePlan env fs store ex f ep).2 nip).2
      mr hmr hcam
    refine ⟨?_, ?_, ?_, ?_⟩
    · intro r hres
      rw [hm] at hres
      rcases hx : (makeRecordPhase env fs store ex nip f ep).2 with fl | ne
      · rw [hx] at hres
        simp at hres
      · exact hok ne (hrp.symm.trans hx)
    · intro m hmm
      rw [hm, show (makeRecordPhase env fs store ex nip f ep).2 = .error .attributeError from
        hrp.trans (hdense m hmm)]
    · intro em hmm
      rw [hm, show (makeRecordPhase env fs store ex nip f ep).2 = .error .attributeError from
        hrp.trans (henc em hmm)]
    · intro p img hpp hrd
      rw [hm, show (makeRecordPhase env fs store ex nip f ep).2 = .error .attributeError from
        hrp.trans (hpath p img hpp hrd)]
  · intro cid m hcam hmask
    have hstate : (make_efficient_example env fs store ex nip f adj mt ib hfl dsc ep).2 =
        (makeRecordPhase env fs store ex nip f ep).1 := by
      rw [hm]
      rcases hx : (makeRecordPhase env fs store ex nip f ep).2 with fl | ne <;> rfl
    rw [hstate]
    have ht : (makeRecordPhase env fs store ex nip f ep).1.trace = [Ev.reproj cid] := by
      simp only [makeRecordPhase]
      rw [phaseD_reproj_event env _ ex _ _ m cid hmask hcam, phaseC_trace, makePlan_trace]
      simp
    rw [ht]
    exact List.mem_singleton.mpr rfl

/-! ## C9: no mutation of pre-existing camera objects -/

/-- C9: the final camera store always extends the input store, so no
pre-existing camera object (in particular the input example's camera) is ever
mutated, and on success the returned record's camera is a freshly allocated
index distinct from the input example's camera index. -/
theorem c9_no_input_mutation {C Img FS Coords : Type} [Inhabited C]
    (env : Env C Img FS Coords) (fs : FS) (store : List C) (ex : Example Img Coords)
    (nip : String) (f : ℝ) (adj : Bool) (mt : Option ℝ) (ib hfl dsc ep : Bool) :
    (∃ t, (make_efficient_example env fs store ex nip f adj mt ib hfl dsc ep).2.store =
      store ++ t) ∧
    (∀ cid, ex.camera = some cid → cid < store.length →
      (make_efficient_example env fs store ex nip f adj mt ib hfl dsc ep).2.store.getD cid
          default = store.getD cid default ∧
      ∀ ne, (make_efficient_example env fs store ex nip f adj mt ib hfl dsc ep).1 =
          .ok (some ne) →
        ne.camera = some store.length ∧ store.length ≠ cid) := by
  obtain ⟨t0, h0⟩ := makePlan_store env fs store ex f ep
  obtain ⟨t1, h1⟩ := phaseB_store env (makePlan env fs store ex f ep).1 ex
    (makePlan env fs store ex f ep).2 (env.ensure_absolute_path nip) mt ib hfl dsc adj
  have hpref : ∃ t, (make_efficient_example env fs store ex nip f adj mt ib hfl dsc ep).2.store =
      store ++ t := by
    simp only [make_efficient_example]
    obtain ⟨t2, h2⟩ := phaseC_store env (phaseB env (makePlan env fs store ex f ep).1 ex (makePlan env fs store ex f ep).2 (env.ensure_absolute_path nip) mt ib hfl dsc adj).1 ex (makePlan env fs store ex f ep).2 nip
    rcases hb : (phaseB env (makePlan env fs store ex f ep).1 ex (makePlan env fs store ex f ep).2 (env.ensure_absolute_path nip) mt ib hfl dsc adj).2 with _ | _ | fl
    · rcases hd : (phaseD env (phaseC env (phaseB env (makePlan env fs store ex f ep).1 ex (makePlan env fs store ex f ep).2 (env.ensure_absolute_path nip) mt ib hfl dsc adj).1 ex (makePlan env fs store ex f ep).2 nip).1 ex (makePlan env fs store ex f ep).2 (phaseC env (phaseB env (makePlan env fs store ex f ep).1 ex (makePlan env fs store ex f ep).2 (env.ensure_absolute_path nip) mt ib hfl dsc adj).1 ex (makePlan env fs store ex f ep).2 nip).2).2 with fl2 | ne2 <;>
        exact ⟨t0 ++ (t1 ++ t2), by simp [phaseD_store, h2, h1, h0]⟩
    · exact ⟨t0 ++ t1, by simp [h1, h0]⟩
    · exact ⟨t0 ++ t1, by simp [h1, h0]⟩
  refine ⟨hpref, ?_⟩
  intro cid hc hlt
  constructor
  · obtain ⟨t, ht⟩ := hpref
    rw [ht]
    exact List.getD_append _ _ _ _ hlt
  · intro ne hok
    have hnid : (makePlan env fs store ex f ep).2.newId = store.length := by
      unfold makePlan
      rw [phaseA_newId_eq]
      simp [hc]
    simp only [make_efficient_example] at hok
    rcases hb : (phaseB env (makePlan env fs store ex f ep).1 ex
        (makePlan env fs store ex f ep).2 (env.ensure_absolute_path nip) mt ib hfl dsc
        adj).2 with _ | _ | fl
    · rw [hb] at hok
      rcases hd : (phaseD env (phaseC env (phaseB env (makePlan env fs store ex f ep).1 ex
          (makePlan env fs store ex f ep).2 (env.ensure_absolute_path nip) mt ib hfl dsc adj).1
          ex (makePlan env fs store ex f ep).2 nip).1 ex (makePlan env fs store ex f ep).2
          (phaseC env (phaseB env (makePlan env fs store ex f ep).1 ex
            (makePlan env fs store ex f ep).2 (env.ensure_absolute_path nip) mt ib hfl dsc adj).1
            ex (makePlan env fs store ex f ep).2 nip).2).2 with fl2 | ne2
      · rw [hd] at hok
        simp at hok
      · rw [hd] at hok
        simp only [Prod.fst] at hok
        have hne : ne2 = ne := by
          simpa using hok
        subst hne
        obtain ⟨_, _, hcamfld, _, _⟩ := phaseD_ok_fields env _ ex _ _ ne2 hd
        have hcm := phaseC_camera_some env (phaseB env (makePlan env fs store ex f ep).1 ex
          (makePlan env fs store ex f ep).2 (env.ensure_absolute_path nip) mt ib hfl dsc adj).1
          ex (makePlan env fs store ex f ep).2 nip cid hc
        rw [hcm, hnid] at hcamfld
        exact ⟨hcamfld, by omega⟩
    · rw [hb] at hok
      simp at hok
    · rw [hb] at hok
      simp at hok

/-! ## C6: the transformed record -/

/-- C6: whenever the function returns a record, that record is the deep copy
of the input with: `bbox` set to the final post-shift-and-scale reprojected
box, `image_path` set to the destination path, the camera replaced by the
newly built camera (turned towards the bbox center, undistorted, shifted to
the crop origin and scaled) exactly when the input had one, the 2D `coords`
reprojected from the old to the new camera exactly when the example carries no
world coordinates, and the remaining fields (here: the world-coordinate marker
and an absent mask) preserved. -/
theorem c6_record_transformation {C Img FS Coords : Type} [Inhabited C]
    (env : Env C Img FS Coords) (fs : FS) (store : List C) (ex : Example Img Coords)
    (nip : String) (f : ℝ) (adj : Bool) (mt : Option ℝ) (ib hfl dsc ep : Bool)
    (hwf : ∀ cid, ex.camera = some cid → cid < store.length) :
    ∀ ne, (make_efficient_example env fs store ex nip f adj mt ib hfl dsc ep).1 = .ok (some ne) →
      ne.bbox = (makePlan env fs store ex f ep).2.final_box ∧
      ne.image_path = .inl nip ∧
      ne.hasWorldCoords = ex.hasWorldCoords ∧
      (ex.camera = none → ne.camera = none) ∧
      (∀ cid, ex.camera = some cid →
        ne.camera = some (makePlan env fs store ex f ep).2.newId ∧
        (make_efficient_example env fs store ex nip f adj mt ib hfl dsc ep).2.store.getD (makePlan env fs store ex f ep).2.newId default =
          env.scale_output
            (env.shift_image
              (env.undistort (env.turn_towards (store.getD cid default) (boxCenter ex.bbox)))
              (-(makePlan env fs store ex f ep).2.expanded_bbox.x, -(makePlan env fs store ex f ep).2.expanded_bbox.y))
            (makePlan env fs store ex f ep).2.scale_factor) ∧
      (ex.hasWorldCoords = true → ne.coords = ex.coords) ∧
      (ex.hasWorldCoords = false → ne.coords =
        env.reproject_image_points ex.coords
          ((makePlan env fs store ex f ep).1.store.getD (makePlan env fs store ex f ep).2.oldId default)
          ((makePlan env fs store ex f ep).1.store.getD (makePlan env fs store ex f ep).2.newId default)) ∧
      (ex.mask = none → ne.mask = none) := by
  intro ne hok
  simp only [make_efficient_example] at hok
  rcases hb : (phaseB env (makePlan env fs store ex f ep).1 ex (makePlan env fs store ex f ep).2 (env.ensure_absolute_path nip) mt ib hfl dsc adj).2 with _ | _ | fl
  · -- proceed
    rw [hb] at hok
    rcases hd : (phaseD env (phaseC env (phaseB env (makePlan env fs store ex f ep).1 ex (makePlan env fs store ex f ep).2 (env.ensure_absolute_path nip) mt ib hfl dsc adj).1 ex (makePlan env fs store ex f ep).2 nip).1 ex (makePlan env fs store ex f ep).2 (phaseC env (phaseB env (makePlan env fs store ex f ep).1 ex (makePlan env fs store ex f ep).2 (env.ensure_absolute_path nip) mt ib hfl dsc adj).1 ex (makePlan env fs store ex f ep).2 nip).2).2 with fl2 | ne2
    · rw [hd] at hok
      simp at hok
    · rw [hd] at hok
      have hne : ne2 = ne := by simpa using hok
      subst hne
      obtain ⟨hbb, hip2, hcamf, hcoordf, hwcf⟩ := phaseD_ok_fields env (phaseC env (phaseB env (makePlan env fs store ex f ep).1 ex (makePlan env fs store ex f ep).2 (env.ensure_absolute_path nip) mt ib hfl dsc adj).1 ex (makePlan env fs store ex f ep).2 nip).1 ex (makePlan env fs store ex f ep).2 (phaseC env (phaseB env (makePlan env fs store ex f ep).1 ex (makePlan env fs store ex f ep).2 (env.ensure_absolute_path nip) mt ib hfl dsc adj).1 ex (makePlan env fs store ex f ep).2 nip).2 ne2 hd
      have hs2 : (make_efficient_example env fs store ex nip f adj mt ib hfl dsc ep).2 = (phaseD env (phaseC env (phaseB env (makePlan env fs store ex f ep).1 ex (makePlan env fs store ex f ep).2 (env.ensure_absolute_path nip) mt ib hfl dsc adj).1 ex (makePlan env fs store ex f ep).2 nip).1 ex (makePlan env fs store ex f ep).2 (phaseC env (phaseB env (makePlan env fs store ex f ep).1 ex (makePlan env fs store ex f ep).2 (env.ensure_absolute_path nip) mt ib hfl dsc adj).1 ex (makePlan env fs store ex f ep).2 nip).2).1 := by
        simp only [make_efficient_example]
        rw [hb, hd]
      obtain ⟨t2, h2⟩ := phaseC_store env (phaseB env (makePlan env fs store ex f ep).1 ex (makePlan env fs store ex f ep).2 (env.ensure_absolute_path nip) mt ib hfl dsc adj).1 ex (makePlan env fs store ex f ep).2 nip
      obtain ⟨t1, h1⟩ := phaseB_store env (makePlan env fs store ex f ep).1 ex (makePlan env fs store ex f ep).2 (env.ensure_absolute_path nip)
        mt ib hfl dsc adj
      have hltN : (makePlan env fs store ex f ep).2.newId < (makePlan env fs store ex f ep).1.store.length := by
        simp only [makePlan]
        exact phaseA_newId_lt env ⟨store, fs, []⟩ ex _ f ep
      refine ⟨?_, ?_, ?_, ?_, ?_, ?_, ?_, ?_⟩
      · rw [hbb, phaseC_bbox]
      · rw [hip2, phaseC_image_path]
      · rw [hwcf, phaseC_hwc]
      · intro hcn
        rw [hcamf, phaseC_camera_none env (phaseB env (makePlan env fs store ex f ep).1 ex (makePlan env fs store ex f ep).2 (env.ensure_absolute_path nip) mt ib hfl dsc adj).1 ex (makePlan env fs store ex f ep).2 nip hcn]
      · intro cid hc
        have hcid := hwf cid hc
        constructor
        · rw [hcamf, phaseC_camera_some env (phaseB env (makePlan env fs store ex f ep).1 ex (makePlan env fs store ex f ep).2 (env.ensure_absolute_path nip) mt ib hfl dsc adj).1 ex (makePlan env fs store ex f ep).2 nip cid hc]
        · rw [hs2, phaseD_store, h2, h1, List.append_assoc,
            List.getD_append _ _ _ _ hltN]
          simp only [makePlan]
          rw [phaseA_newCam_some env ⟨store, fs, []⟩ ex _ f ep cid hc hcid]
      · intro hw3
        rw [hcoordf, phaseC_coords_3d env (phaseB env (makePlan env fs store ex f ep).1 ex (makePlan env fs store ex f ep).2 (env.ensure_absolute_path nip) mt ib hfl dsc adj).1 ex (makePlan env fs store ex f ep).2 nip hw3]
      · intro hw2
        have hltO : (makePlan env fs store ex f ep).2.oldId < (makePlan env fs store ex f ep).1.store.length := by
          simp only [makePlan]
          exact phaseA_oldId_lt env ⟨store, fs, []⟩ ex _ f ep hwf
        rw [hcoordf, phaseC_coords_2d env (phaseB env (makePlan env fs store ex f ep).1 ex (makePlan env fs store ex f ep).2 (env.ensure_absolute_path nip) mt ib hfl dsc adj).1 ex (makePlan env fs store ex f ep).2 nip hw2, h2, h1, List.append_assoc,
          List.getD_append _ _ _ _ hltO, List.getD_append _ _ _ _ hltN]
      · intro hmn
        have hmm := phaseD_mask_none env (phaseC env (phaseB env (makePlan env fs store ex f ep).1 ex (makePlan env fs store ex f ep).2 (env.ensure_absolute_path nip) mt ib hfl dsc adj).1 ex (makePlan env fs store ex f ep).2 nip).1 ex (makePlan env fs store ex f ep).2 (phaseC env (phaseB env (makePlan env fs store ex f ep).1 ex (makePlan env fs store ex f ep).2 (env.ensure_absolute_path nip) mt ib hfl dsc adj).1 ex (makePlan env fs store ex f ep).2 nip).2 hmn
        rw [hmm] at hd
        have hd2 : (phaseC env (phaseB env (makePlan env fs store ex f ep).1 ex (makePlan env fs store ex f ep).2 (env.ensure_absolute_path nip) mt ib hfl dsc adj).1 ex (makePlan env fs store ex f ep).2 nip).2 = ne2 := by simpa using hd
        rw [← hd2, phaseC_mask, hmn]
  · -- retNone
    rw [hb] at hok
    simp at hok
  · -- raised
    rw [hb] at hok
    simp at hok

/-! ## Witnesses -/

/-- C1 witness: concrete runs on the failing environments. -/
theorem c1_witness :
    ((envMiss.is_file_newer () (envMiss.ensure_absolute_path "dst.jpg") none &&
      envMiss.is_image_readable () (envMiss.ensure_absolute_path "dst.jpg")) = false) ∧
    exPath.image_path = .inl "src.jpg" ∧
    (make_efficient_example envMiss () [()] exPath "dst.jpg" 1 false none true false false false).1 =
      .error (.readError .fileNotFound) ∧
    (make_efficient_example envCorrupt () [()] exPath "dst.jpg" 1 false none true false false false).1 =
      .ok none ∧
    (make_efficient_example envCorrupt () [()] exPath "dst.jpg" 1 false none false false false false).1 =
      .error (.readError (.other 7)) := by
  refine ⟨rfl, rfl, ?_, ?_, ?_⟩
  · exact (c1_read_error_handling envMiss () [()] exPath "dst.jpg" 1 false none false false false
      "src.jpg" rfl rfl).1 rfl true
  · exact ((c1_read_error_handling envCorrupt () [()] exPath "dst.jpg" 1 false none false false false
      "src.jpg" rfl rfl).2 7 rfl).1
  · exact ((c1_read_error_handling envCorrupt () [()] exPath "dst.jpg" 1 false none false false false
      "src.jpg" rfl rfl).2 7 rfl).2

/-- C4 witness: the crop-box formula at a concrete positive expansion factor. -/
theorem c4_witness :
    (0 : ℝ) < 1 ∧
    ((phaseA envW ⟨[()], (), []⟩ exPlain ⟨0, 0, 640, 480⟩ 1 false).2.expanded_bbox =
      intersectBox
        (expandBox
          (boxAround (boxCenter (phaseA envW ⟨[()], (), []⟩ exPlain ⟨0, 0, 640, 480⟩ 1 false).2.reprojected_box)
            (max (Real.cos (Real.pi / 6) * (phaseA envW ⟨[()], (), []⟩ exPlain ⟨0, 0, 640, 480⟩ 1 false).2.reprojected_box.w
                  + Real.sin (Real.pi / 6) * (phaseA envW ⟨[()], (), []⟩ exPlain ⟨0, 0, 640, 480⟩ 1 false).2.reprojected_box.h)
                 (Real.cos (Real.pi / 6) * (phaseA envW ⟨[()], (), []⟩ exPlain ⟨0, 0, 640, 480⟩ 1 false).2.reprojected_box.h
                  + Real.sin (Real.pi / 6) * (phaseA envW ⟨[()], (), []⟩ exPlain ⟨0, 0, 640, 480⟩ 1 false).2.reprojected_box.w)))
          (1 / 0.85 * 1.1 * (1 / 0.85) * 1))
        (phaseA envW ⟨[()], (), []⟩ exPlain ⟨0, 0, 640, 480⟩ 1 false).2.reprojected_full_box ∧
    ((false : Bool) = true → (phaseA envW ⟨[()], (), []⟩ exPlain ⟨0, 0, 640, 480⟩ 1 false).2.reprojected_full_box = ⟨-1e9, -1e9, 2e9, 2e9⟩) ∧
    ((false : Bool) = false → ∃ oldC newC,
      (phaseA envW ⟨[()], (), []⟩ exPlain ⟨0, 0, 640, 480⟩ 1 false).2.reprojected_full_box = envW.reproject_box_corners ⟨0, 0, 640, 480⟩ oldC newC ∧
      (phaseA envW ⟨[()], (), []⟩ exPlain ⟨0, 0, 640, 480⟩ 1 false).2.reprojected_box = envW.reproject_box_side_midpoints exPlain.bbox oldC newC)) :=
  ⟨by norm_num,
   c4_crop_box_formula envW ⟨[()], (), []⟩ exPlain ⟨0, 0, 640, 480⟩ 1 false (by norm_num)⟩

/-- C7 witness: the zero-expansion behaviour at a concrete run. -/
theorem c7_witness :
    (0 : ℝ) = 0 ∧
    ((phaseA envW ⟨[()], (), []⟩ exPlain ⟨0, 0, 640, 480⟩ 0 false).2.expanded_bbox = (phaseA envW ⟨[()], (), []⟩ exPlain ⟨0, 0, 640, 480⟩ 0 false).2.reprojected_box ∧
     (phaseA envW ⟨[()], (), []⟩ exPlain ⟨0, 0, 640, 480⟩ 0 false).2.dst_shape =
       (round ((phaseA envW ⟨[()], (), []⟩ exPlain ⟨0, 0, 640, 480⟩ 0 false).2.scale_factor * (phaseA envW ⟨[()], (), []⟩ exPlain ⟨0, 0, 640, 480⟩ 0 false).2.reprojected_box.h),
        round ((phaseA envW ⟨[()], (), []⟩ exPlain ⟨0, 0, 640, 480⟩ 0 false).2.scale_factor * (phaseA envW ⟨[()], (), []⟩ exPlain ⟨0, 0, 640, 480⟩ 0 false).2.reprojected_box.w))) :=
  ⟨rfl, c7_zero_expansion envW ⟨[()], (), []⟩ exPlain ⟨0, 0, 640, 480⟩ 0 false rfl⟩

/-- C5 witness: cache-hit behaviour on a concrete maskless example. -/
theorem c5_witness :
    envW.is_file_newer () (envW.ensure_absolute_path "dst.jpg") none = true ∧
    envW.is_image_readable () (envW.ensure_absolute_path "dst.jpg") = true ∧
    ((make_efficient_example envW () [()] exPlain "dst.jpg" 1 false none false false false false).2.fs = () ∧
     (∀ q, Ev.wrote q ∉ (make_efficient_example envW () [()] exPlain "dst.jpg" 1 false none false false false false).2.trace) ∧
     (∀ q, Ev.readSrc q ∉ (make_efficient_example envW () [()] exPlain "dst.jpg" 1 false none false false false false).2.trace) ∧
     (exPlain.mask = none → (make_efficient_example envW () [()] exPlain "dst.jpg" 1 false none false false false false).2.trace = []) ∧
     make_efficient_example envW (make_efficient_example envW () [()] exPlain "dst.jpg" 1 false none false false false false).2.fs [()] exPlain "dst.jpg" 1 false none false false false false =
       (make_efficient_example envW () [()] exPlain "dst.jpg" 1 false none false false false false)) :=
  ⟨rfl, rfl,
   c5_cache_idempotent envW () [()] exPlain "dst.jpg" 1 false none false false false false rfl rfl⟩

/-- C6 witness: the record-transformation property at a concrete run with a
well-formed one-camera store. -/
theorem c6_witness :
    (∀ cid, exPlain.camera = some cid → cid < [()].length) ∧
    (∀ ne, (make_efficient_example envW () [()] exPlain "dst.jpg" 1 false none false false false false).1 = .ok (some ne) →
      ne.bbox = (makePlan envW () [()] exPlain 1 false).2.final_box ∧
      ne.image_path = .inl "dst.jpg" ∧
      ne.hasWorldCoords = exPlain.hasWorldCoords ∧
      (exPlain.camera = none → ne.camera = none) ∧
      (∀ cid, exPlain.camera = some cid →
        ne.camera = some (makePlan envW () [()] exPlain 1 false).2.newId ∧
        (make_efficient_example envW () [()] exPlain "dst.jpg" 1 false none false false false false).2.store.getD (makePlan envW () [()] exPlain 1 false).2.newId default =
          envW.scale_output
            (envW.shift_image
              (envW.undistort (envW.turn_towards ([()].getD cid default) (boxCenter exPlain.bbox)))
              (-(makePlan envW () [()] exPlain 1 false).2.expanded_bbox.x, -(makePlan envW () [()] exPlain 1 false).2.expanded_bbox.y))
            (makePlan envW () [()] exPlain 1 false).2.scale_factor) ∧
      (exPlain.hasWorldCoords = true → ne.coords = exPlain.coords) ∧
      (exPlain.hasWorldCoords = false → ne.coords =
        envW.reproject_image_points exPlain.coords
          ((makePlan envW () [()] exPlain 1 false).1.store.getD (makePlan envW () [()] exPlain 1 false).2.oldId default)
          ((makePlan envW () [()] exPlain 1 false).1.store.getD (makePlan envW () [()] exPlain 1 false).2.newId default)) ∧
      (exPlain.mask = none → ne.mask = none)) := by
  have hwf : ∀ cid, exPlain.camera = some cid → cid < [()].length := by
    intro cid h
    rw [show exPlain.camera = some 0 from rfl] at h
    injection h with h2
    subst h2
    decide
  exact ⟨hwf,
    c6_record_transformation envW () [()] exPlain "dst.jpg" 1 false none false false false false hwf⟩

/-- C10 witness: a camera-less masked example raises the attribute error, and
a camera-carrying masked example reprojects from that camera. -/
theorem c10_witness :
    envW.is_file_newer () (envW.ensure_absolute_path "dst.jpg") none = true ∧
    envW.is_image_readable () (envW.ensure_absolute_path "dst.jpg") = true ∧
    (make_efficient_example envW () [()] exNoCam "dst.jpg" 1 false none false false false false).1 = .error .attributeError ∧
    Ev.reproj 0 ∈ (make_efficient_example envW () [()] exMasked "dst.jpg" 1 false none false false false false).2.trace := by
  refine ⟨rfl, rfl, ?_, ?_⟩
  · exact ((c10_mask_requires_camera envW () [()] exNoCam "dst.jpg" 1 false none false false false
      false rfl rfl).1 (MaskRepr.dense ()) rfl rfl rfl).2.1 () rfl
  · exact (c10_mask_requires_camera envW () [()] exMasked "dst.jpg" 1 false none false false false
      false rfl rfl).2 0 () rfl rfl

end PosePile
